import Mathlib

/-!
Verification of the attention / KV-cache engine of `src/MaxText/layers/attentions.py`.

The development shallowly embeds the engine:

* floating-point tensors become real-valued functions over `Fin`-indexed
  coordinates (the algebraic claims are about the exact arithmetic the code
  performs, with machine floats idealised as reals);
* the numeric dtype bookkeeping (`astype` casts) is tracked by a small symbolic
  dtype calculus, since a cast does not change the idealised real value;
* the flax cache variables become an explicit state record, and the cache
  mutating entry points become state-passing functions returning `Except` for
  the `raise` paths.
-/

namespace MaxTextAttention

/-! ## Constants

`DEFAULT_MASK_VALUE = -0.7 * float32 max` (attentions.py line 61). -/

/-- Largest finite float32, `jnp.finfo(float32).max = (2 - 2^-23) * 2^127`. -/
noncomputable def float32_max : ℝ := (2 - (2 : ℝ) ^ (-23 : ℤ)) * 2 ^ (127 : ℕ)

/-- The additive mask sentinel, `-0.7 * jnp.finfo(float32).max` (line 61). -/
noncomputable def DEFAULT_MASK_VALUE : ℝ := -0.7 * float32_max

theorem float32_max_pos : 0 < float32_max := by
  have h : (2 : ℝ) ^ (-23 : ℤ) = ((2 : ℝ) ^ (23 : ℕ))⁻¹ := by
    rw [zpow_neg]
    norm_num
  have h2 : (2 : ℝ) ^ (-23 : ℤ) < 2 := by
    rw [h]
    have : (1 : ℝ) < (2 : ℝ) ^ (23 : ℕ) := by norm_num
    have hpos : (0 : ℝ) < (2 : ℝ) ^ (23 : ℕ) := by positivity
    calc ((2 : ℝ) ^ (23 : ℕ))⁻¹ ≤ 1 := by
          rw [inv_le_one_iff₀]
          right
          linarith
      _ < 2 := by norm_num
  have hp : (0 : ℝ) < 2 - (2 : ℝ) ^ (-23 : ℤ) := by linarith
  have : (0 : ℝ) < (2 : ℝ) ^ (127 : ℕ) := by positivity
  unfold float32_max
  positivity

theorem default_mask_value_neg : DEFAULT_MASK_VALUE < 0 := by
  unfold DEFAULT_MASK_VALUE
  have := float32_max_pos
  nlinarith

/-- Permitted positions carry additive bias `0`, and `0` passes the
`mask >= DEFAULT_MASK_VALUE * 0.5` test of `apply_mask_to_logits`. -/
theorem zero_ge_half_mask : DEFAULT_MASK_VALUE * 0.5 ≤ 0 := by
  have := default_mask_value_neg
  nlinarith

/-- A forbidden position (bias `DEFAULT_MASK_VALUE`) fails the
`mask >= DEFAULT_MASK_VALUE * 0.5` test. -/
theorem mask_lt_half_mask : DEFAULT_MASK_VALUE < DEFAULT_MASK_VALUE * 0.5 := by
  have := default_mask_value_neg
  nlinarith

/-! ## Row-level online softmax (`compute_local_attention`, lines 385-448)

`compute_local_attention` reduces over the last (key/value length) axis; every
other axis is carried along pointwise.  The definitions below embed one row of
that computation: `w` is the masked score row over `s + 1` key positions and
`v` assigns each key position its value vector of head dimension `d`.  The
`moveaxis`/`reshape` steps of the source only rearrange indices and are
embedded separately in the full-tensor pipeline below. -/

/-- `local_max = jnp.max(attn_weights, axis=-1)` for one row (line 401). -/
noncomputable def local_max {s : ℕ} (w : Fin (s + 1) → ℝ) : ℝ :=
  Finset.univ.sup' (Finset.univ_nonempty) w

/-- `local_exps = jnp.exp(attn_weights - local_max)` for one row (line 402). -/
noncomputable def local_exps {s : ℕ} (w : Fin (s + 1) → ℝ) : Fin (s + 1) → ℝ :=
  fun j => Real.exp (w j - local_max w)

/-- `local_sum = jnp.sum(local_exps, axis=-1)` for one row (line 403). -/
noncomputable def local_sum {s : ℕ} (w : Fin (s + 1) → ℝ) : ℝ :=
  ∑ j, local_exps w j

/-- `local_out = wv_product(local_exps, value)` for one row: the unnormalized
weighted value combination (lines 433, 562). -/
noncomputable def local_out {s d : ℕ} (w : Fin (s + 1) → ℝ)
    (v : Fin (s + 1) → Fin d → ℝ) : Fin d → ℝ :=
  fun δ => ∑ j, local_exps w j * v j δ

/-- The `(local_out, local_max, local_sum)` triple returned by
`compute_local_attention` (line 448), at the level of one attention row. -/
noncomputable def compute_local_attention_row {s d : ℕ} (w : Fin (s + 1) → ℝ)
    (v : Fin (s + 1) → Fin d → ℝ) : (Fin d → ℝ) × ℝ × ℝ :=
  (local_out w v, local_max w, local_sum w)

/-! ## The merge rule (`normalize_attention`, lines 1216-1237) -/

/-- `functools.reduce(jnp.maximum, local_maxes)` — fold of `max` over a
nonempty list (line 1228); the `[]` case is unreachable at every call site. -/
def reduce_maximum : List ℝ → ℝ
  | [] => 0
  | a :: rest => rest.foldl max a

/-- `normalize_attention` (lines 1216-1237): `global_max` is the reduced max,
`global_sum` rescales and adds the per-chunk sums, and the result accumulates
`exp(local_max - global_max) / global_sum * local_out` over the chunks. -/
noncomputable def normalize_attention {d : ℕ} (local_outs : List (Fin d → ℝ))
    (local_maxes : List ℝ) (local_sums : List ℝ) : Fin d → ℝ :=
  let global_max := reduce_maximum local_maxes
  let global_sum :=
    ((local_sums.zip local_maxes).map
      (fun p => Real.exp (p.2 - global_max) * p.1)).sum
  fun δ =>
    ((local_maxes.zip local_outs).map
      (fun p => Real.exp (p.1 - global_max) / global_sum * p.2 δ)).sum

/-! Splitting a row of `m + 1 + (n + 1)` key positions into its first `m + 1`
and last `n + 1` positions. -/

/-- Scores of the first chunk of a split row. -/
noncomputable def chunk1 {m n : ℕ} (w : Fin (m + 1 + (n + 1)) → ℝ) :
    Fin (m + 1) → ℝ :=
  fun i => w (Fin.castAdd (n + 1) i)

/-- Scores of the second chunk of a split row. -/
noncomputable def chunk2 {m n : ℕ} (w : Fin (m + 1 + (n + 1)) → ℝ) :
    Fin (n + 1) → ℝ :=
  fun i => w (Fin.natAdd (m + 1) i)

/-- Values of the first chunk of a split row. -/
noncomputable def vchunk1 {m n d : ℕ} (v : Fin (m + 1 + (n + 1)) → Fin d → ℝ) :
    Fin (m + 1) → Fin d → ℝ :=
  fun i => v (Fin.castAdd (n + 1) i)

/-- Values of the second chunk of a split row. -/
noncomputable def vchunk2 {m n d : ℕ} (v : Fin (m + 1 + (n + 1)) → Fin d → ℝ) :
    Fin (n + 1) → Fin d → ℝ :=
  fun i => v (Fin.natAdd (m + 1) i)

theorem sum_split (m n : ℕ) (f : Fin (m + 1 + (n + 1)) → ℝ) :
    ∑ j, f j = (∑ i : Fin (m + 1), f (Fin.castAdd (n + 1) i)) +
      ∑ i : Fin (n + 1), f (Fin.natAdd (m + 1) i) :=
  @Fin.sum_univ_add ℝ _ (m + 1) (n + 1) f

theorem local_max_split {m n : ℕ} (w : Fin (m + 1 + (n + 1)) → ℝ) :
    local_max w = max (local_max (chunk1 w)) (local_max (chunk2 w)) := by
  unfold local_max chunk1 chunk2
  apply le_antisymm
  · apply Finset.sup'_le
    intro j _
    refine @Fin.addCases (m + 1) (n + 1)
      (fun j => w j ≤ max (Finset.univ.sup' Finset.univ_nonempty
          (fun i => w (Fin.castAdd (n + 1) i)))
        (Finset.univ.sup' Finset.univ_nonempty
          (fun i => w (Fin.natAdd (m + 1) i))))
      (fun i => ?_) (fun i => ?_) j
    · exact le_max_of_le_left
        (Finset.le_sup' (fun i => w (Fin.castAdd (n + 1) i)) (Finset.mem_univ i))
    · exact le_max_of_le_right
        (Finset.le_sup' (fun i => w (Fin.natAdd (m + 1) i)) (Finset.mem_univ i))
  · apply max_le
    · apply Finset.sup'_le
      intro i _
      exact Finset.le_sup' w (Finset.mem_univ (Fin.castAdd (n + 1) i))
    · apply Finset.sup'_le
      intro i _
      exact Finset.le_sup' w (Finset.mem_univ (Fin.natAdd (m + 1) i))

theorem local_sum_split {m n : ℕ} (w : Fin (m + 1 + (n + 1)) → ℝ) :
    local_sum w =
      Real.exp (local_max (chunk1 w) - local_max w) * local_sum (chunk1 w) +
      Real.exp (local_max (chunk2 w) - local_max w) * local_sum (chunk2 w) := by
  have h : local_sum w =
      (∑ i : Fin (m + 1), local_exps w (Fin.castAdd (n + 1) i)) +
      ∑ i : Fin (n + 1), local_exps w (Fin.natAdd (m + 1) i) :=
    sum_split m n (local_exps w)
  rw [h]
  unfold local_sum local_exps
  rw [Finset.mul_sum, Finset.mul_sum]
  congr 1
  · apply Finset.sum_congr rfl
    intro i _
    rw [← Real.exp_add]
    unfold chunk1
    ring_nf
  · apply Finset.sum_congr rfl
    intro i _
    rw [← Real.exp_add]
    unfold chunk2
    ring_nf

theorem local_out_split {m n d : ℕ} (w : Fin (m + 1 + (n + 1)) → ℝ)
    (v : Fin (m + 1 + (n + 1)) → Fin d → ℝ) (δ : Fin d) :
    local_out w v δ =
      Real.exp (local_max (chunk1 w) - local_max w) *
        local_out (chunk1 w) (vchunk1 v) δ +
      Real.exp (local_max (chunk2 w) - local_max w) *
        local_out (chunk2 w) (vchunk2 v) δ := by
  have h : local_out w v δ =
      (∑ i : Fin (m + 1), local_exps w (Fin.castAdd (n + 1) i) *
        v (Fin.castAdd (n + 1) i) δ) +
      ∑ i : Fin (n + 1), local_exps w (Fin.natAdd (m + 1) i) *
        v (Fin.natAdd (m + 1) i) δ :=
    sum_split m n (fun j => local_exps w j * v j δ)
  rw [h]
  unfold local_out local_exps
  rw [Finset.mul_sum, Finset.mul_sum]
  congr 1
  · apply Finset.sum_congr rfl
    intro i _
    rw [← mul_assoc, ← Real.exp_add]
    unfold chunk1 vchunk1
    ring_nf
  · apply Finset.sum_congr rfl
    intro i _
    rw [← mul_assoc, ← Real.exp_add]
    unfold chunk2 vchunk2
    ring_nf

/-- C1.  Merging the two per-chunk `compute_local_attention` triples with
`normalize_attention` reproduces the normalized softmax-weighted output of a
single pass over the concatenated row (the single-chunk normalization
`unnormalized_output / exponentials_sum` of `__call__`, line 1288). -/
theorem normalize_attention_merges_chunks {m n d : ℕ}
    (w : Fin (m + 1 + (n + 1)) → ℝ) (v : Fin (m + 1 + (n + 1)) → Fin d → ℝ)
    (δ : Fin d) :
    normalize_attention
      [(compute_local_attention_row (chunk1 w) (vchunk1 v)).1,
       (compute_local_attention_row (chunk2 w) (vchunk2 v)).1]
      [(compute_local_attention_row (chunk1 w) (vchunk1 v)).2.1,
       (compute_local_attention_row (chunk2 w) (vchunk2 v)).2.1]
      [(compute_local_attention_row (chunk1 w) (vchunk1 v)).2.2,
       (compute_local_attention_row (chunk2 w) (vchunk2 v)).2.2] δ =
    local_out w v δ / local_sum w := by
  unfold normalize_attention compute_local_attention_row reduce_maximum
  simp only [List.zip_cons_cons, List.zip_nil_right, List.map_cons, List.map_nil,
    List.sum_cons, List.sum_nil, List.foldl_cons, List.foldl_nil]
  rw [local_out_split w v δ, local_sum_split w]
  rw [local_max_split w]
  ring

/-! ## Masking (`apply_mask_to_logits` lines 79-101,
`generate_attention_mask` lines 144-189) -/

/-- Execution modes (`common_types.MODEL_MODE_*`). -/
inductive ModelMode
  | train
  | prefill
  | autoregressive
deriving DecidableEq

/-- Sentinel marking live autoregressive cache slots
(`common_types.DECODING_ACTIVE_SEQUENCE_INDICATOR`; `common_types.py` is not
part of the sources, and no claim depends on the concrete value — the spec only
calls it a reserved active sentinel, so it is fixed to `1` here). -/
def DECODING_ACTIVE_SEQUENCE_INDICATOR : ℤ := 1

/-- `apply_mask_to_logits` (line 101):
`jnp.where(mask >= DEFAULT_MASK_VALUE * 0.5, logits, DEFAULT_MASK_VALUE)`. -/
noncomputable def apply_mask_to_logits {t s : ℕ} (logits mask : Fin t → Fin s → ℝ) :
    Fin t → Fin s → ℝ :=
  fun i j =>
    if DEFAULT_MASK_VALUE * 0.5 ≤ mask i j then logits i j else DEFAULT_MASK_VALUE

/-- Segment-id component of the non-autoregressive mask (line 149):
query and key positions must carry equal segment ids; `true` when no segment
ids are given. -/
def segment_mask {b t : ℕ} (segIds : Option (Fin b → Fin t → ℤ))
    (β : Fin b) (i j : Fin t) : Bool :=
  match segIds with
  | none => true
  | some sID => sID β i == sID β j

/-- Causal component of the mask (lines 169-175): key position `j` is visible
from query position `i` iff `j <= i`. -/
def causal_mask {t : ℕ} (i j : Fin t) : Bool :=
  decide (j.val ≤ i.val)

/-- The non-autoregressive branch of `generate_attention_mask` (lines 144-189)
for one batch entry: the logical AND of the segment mask (when segment ids are
present) and the causal mask, converted to an additive bias `0` /
`DEFAULT_MASK_VALUE` (line 186).  In every non-autoregressive mode the causal
component is present, so the result is never `None`.  In these modes query and
key/value lengths agree (the prefill/train cache step passes the inputs
through), hence the single length `t`. -/
noncomputable def generate_attention_mask_nonar {b t : ℕ}
    (segIds : Option (Fin b → Fin t → ℤ)) : Fin b → Fin t → Fin t → ℝ :=
  fun β i j =>
    if segment_mask segIds β i j && causal_mask i j then 0 else DEFAULT_MASK_VALUE

/-! ## Symbolic dtype tracking (`apply_attention_dot` lines 470-483)

Casting a tensor with `astype` does not change its idealised real value, so
the value-level pipeline below ignores casts; the dtype bookkeeping of
`apply_attention_dot` is embedded separately as a function on dtypes. -/

/-- Numeric dtypes occurring in the attention pipeline. -/
inductive NumDType
  | float32
  | bfloat16
  | float16
  | int8
deriving DecidableEq

/-- Dtype of query and key entering `qk_product` (lines 471-474): the
`float32_qk_product` upcast is applied only when
`model_mode == MODEL_MODE_TRAIN`, otherwise the storage dtype is kept. -/
def qk_product_operand_dtype (mode : ModelMode) (float32_qk_product : Bool)
    (storage : NumDType) : NumDType :=
  if mode = ModelMode.train ∧ float32_qk_product = true then NumDType.float32
  else storage

/-- Dtype of the score tensor entering the softmax (lines 481-483): the
`float32_logits` upcast is likewise guarded by `model_mode == TRAIN`. -/
def logits_softmax_dtype (mode : ModelMode) (float32_logits : Bool)
    (scores : NumDType) : NumDType :=
  if mode = ModelMode.train ∧ float32_logits = true then NumDType.float32
  else scores

/-! ## Grouped-query dot-product attention (`qk_product` lines 490-529,
`wv_product` lines 531-574, `apply_attention_dot` lines 450-488)

Tensors are real-valued functions over `Fin` coordinates in the layouts the
code uses: query `(numQueryHeads, batch, qLen, headDim)`, key and value
`(numKvHeads, batch, kvLen, headDim)` with `numQueryHeads = numKvHeads * g`.
`jnp.reshape` of the `(n, b, t, d)` query into `(n_kv, b, g, t, d)` (line 524)
is a row-major reindexing of the flattened leading axes; it is embedded by
explicit division and modulus on the flat head-batch index.  `astype` casts
(lines 472-474, 482-483) are value-transparent over ℝ and are tracked by the
dtype calculus above; `validate_compute_axis_order` (line 470) is a pure guard
and every other use of `compute_axis_order` in the executed path is commented
out in the source, so the values below do not depend on it.  `self.reshape_q`
is `False` by default and the `reshape_q` special case (lines 435-438) is not
taken. -/

theorem fin_mul_pos_right {a c : ℕ} (h : Fin (a * c)) : 0 < c := by
  have h2 : 0 < a * c := Nat.lt_of_le_of_lt (Nat.zero_le _) h.isLt
  exact Nat.pos_of_ne_zero (fun hg => by simp [hg] at h2)

theorem fin_mul_pos_left {a c : ℕ} (h : Fin (a * c)) : 0 < a := by
  have h2 : 0 < a * c := Nat.lt_of_le_of_lt (Nat.zero_le _) h.isLt
  exact Nat.pos_of_ne_zero (fun hg => by simp [hg] at h2)

theorem flat_idx3_lt {n_kv b g : ℕ} (k : Fin n_kv) (β : Fin b) (g' : Fin g) :
    (k.val * b + β.val) * g + g'.val < n_kv * b * g := by
  have h1 : k.val * b + β.val < n_kv * b := by
    calc k.val * b + β.val < k.val * b + b := by omega
      _ = (k.val + 1) * b := by ring
      _ ≤ n_kv * b := Nat.mul_le_mul_right b k.isLt
  calc (k.val * b + β.val) * g + g'.val < (k.val * b + β.val) * g + g := by omega
    _ = (k.val * b + β.val + 1) * g := by ring
    _ ≤ n_kv * b * g := Nat.mul_le_mul_right g h1

theorem flat_idx3_div_lt {n_kv b g : ℕ} (k : Fin n_kv) (β : Fin b) (g' : Fin g) :
    ((k.val * b + β.val) * g + g'.val) / b < n_kv * g := by
  have hb : 0 < b := Nat.lt_of_le_of_lt (Nat.zero_le _) β.isLt
  rw [Nat.div_lt_iff_lt_mul hb]
  calc (k.val * b + β.val) * g + g'.val < n_kv * b * g := flat_idx3_lt k β g'
    _ = n_kv * g * b := by ring

/-- The reshape `jnp.reshape(query, (n_kv, b, n // n_kv, t, d))` (line 524):
row-major reindexing of the `(n, b)` leading block into `(n_kv, b, g)`. -/
noncomputable def reshaped_query (n_kv g b t d : ℕ)
    (query : Fin (n_kv * g) → Fin b → Fin t → Fin d → ℝ) :
    Fin n_kv → Fin b → Fin g → Fin t → Fin d → ℝ :=
  fun k β g' τ δ =>
    query ⟨((k.val * b + β.val) * g + g'.val) / b, flat_idx3_div_lt k β g'⟩
      ⟨((k.val * b + β.val) * g + g'.val) % b,
        Nat.mod_lt _ (Nat.lt_of_le_of_lt (Nat.zero_le _) β.isLt)⟩ τ δ

/-- `qk_product` (lines 490-529): reshape the query and contract the head
dimension, `jnp.einsum("kbgtd,kbsd->kbgts", query, key)`. -/
noncomputable def qk_product (n_kv g b t s d : ℕ)
    (query : Fin (n_kv * g) → Fin b → Fin t → Fin d → ℝ)
    (key : Fin n_kv → Fin b → Fin s → Fin d → ℝ) :
    Fin n_kv → Fin b → Fin g → Fin t → Fin s → ℝ :=
  fun k β g' τ σ => ∑ δ, reshaped_query n_kv g b t d query k β g' τ δ * key k β σ δ

/-- The einsum of `wv_product` (line 562):
`jnp.einsum("kbgts,kbsd->kbgtd", attn_weights, value)`. -/
noncomputable def wv_einsum (n_kv g b t s d : ℕ)
    (attn_weights : Fin n_kv → Fin b → Fin g → Fin t → Fin s → ℝ)
    (value : Fin n_kv → Fin b → Fin s → Fin d → ℝ) :
    Fin n_kv → Fin b → Fin g → Fin t → Fin d → ℝ :=
  fun k β g' τ δ => ∑ σ, attn_weights k β g' τ σ * value k β σ δ

theorem wv_flat_div_lt {n_kv g b : ℕ} (h : Fin (n_kv * g)) (β : Fin b) :
    (h.val * b + β.val) / (b * g) < n_kv := by
  have hb : 0 < b := Nat.lt_of_le_of_lt (Nat.zero_le _) β.isLt
  have hg : 0 < g := fin_mul_pos_right h
  rw [Nat.div_lt_iff_lt_mul (Nat.mul_pos hb hg)]
  calc h.val * b + β.val < h.val * b + b := by omega
    _ = (h.val + 1) * b := by ring
    _ ≤ n_kv * g * b := Nat.mul_le_mul_right b h.isLt
    _ = n_kv * (b * g) := by ring

theorem wv_rem_div_lt {n_kv g b : ℕ} (h : Fin (n_kv * g)) (β : Fin b) :
    (h.val * b + β.val) % (b * g) / g < b := by
  have hb : 0 < b := Nat.lt_of_le_of_lt (Nat.zero_le _) β.isLt
  have hg : 0 < g := fin_mul_pos_right h
  rw [Nat.div_lt_iff_lt_mul hg]
  calc (h.val * b + β.val) % (b * g) < b * g := Nat.mod_lt _ (Nat.mul_pos hb hg)
    _ = b * g := rfl

/-- `wv_product` (lines 531-574): the einsum followed by the reshape of the
`(n_kv, b, g, t, d)` output back to `(n_kv * g, b, t, d)` (line 568), again a
row-major reindexing of the flattened leading axes. -/
noncomputable def wv_product (n_kv g b t s d : ℕ)
    (attn_weights : Fin n_kv → Fin b → Fin g → Fin t → Fin s → ℝ)
    (value : Fin n_kv → Fin b → Fin s → Fin d → ℝ) :
    Fin (n_kv * g) → Fin b → Fin t → Fin d → ℝ :=
  fun h β τ δ =>
    wv_einsum n_kv g b t s d attn_weights value
      ⟨(h.val * b + β.val) / (b * g), wv_flat_div_lt h β⟩
      ⟨(h.val * b + β.val) % (b * g) / g, wv_rem_div_lt h β⟩
      ⟨(h.val * b + β.val) % (b * g) % g, Nat.mod_lt _ (fin_mul_pos_right h)⟩
      τ δ

/-- Scores after `apply_mask_to_logits` inside `apply_attention_dot`
(lines 478-487), for the non-autoregressive modes (causal mask present). -/
noncomputable def masked_attn_weights (n_kv g b t d : ℕ)
    (query : Fin (n_kv * g) → Fin b → Fin (t + 1) → Fin d → ℝ)
    (key : Fin n_kv → Fin b → Fin (t + 1) → Fin d → ℝ)
    (segIds : Option (Fin b → Fin (t + 1) → ℤ)) :
    Fin n_kv → Fin b → Fin g → Fin (t + 1) → Fin (t + 1) → ℝ :=
  fun k β g' =>
    apply_mask_to_logits
      (fun τ σ => qk_product n_kv g b (t + 1) (t + 1) d query key k β g' τ σ)
      (fun τ σ => generate_attention_mask_nonar segIds β τ σ)

/-- Index into the merged `(t + 1) * g` axis produced by the
`moveaxis`/`reshape` of `local_max`/`local_sum` in `compute_local_attention`
(lines 419-427): query position major, group minor. -/
def merge_idx {t g : ℕ} (i : Fin (t + 1)) (g' : Fin g) : Fin ((t + 1) * g) :=
  ⟨i.val * g + g'.val, by
    calc i.val * g + g'.val < i.val * g + g := by omega
      _ = (i.val + 1) * g := by ring
      _ ≤ (t + 1) * g := Nat.mul_le_mul_right g i.isLt⟩

/-- `apply_attention_dot` (lines 450-488) in the non-autoregressive modes,
composed with `compute_local_attention` (lines 385-448): returns the
unnormalized output `(n_kv * g, b, t, d)` together with the per-row max and
exp-sum, the latter two on the merged `(n_kv, b, (t+1)*g)` axes produced by
the `moveaxis`/`reshape` steps. -/
noncomputable def apply_attention_dot (n_kv g b t d : ℕ)
    (query : Fin (n_kv * g) → Fin b → Fin (t + 1) → Fin d → ℝ)
    (key value : Fin n_kv → Fin b → Fin (t + 1) → Fin d → ℝ)
    (segIds : Option (Fin b → Fin (t + 1) → ℤ)) :
    (Fin (n_kv * g) → Fin b → Fin (t + 1) → Fin d → ℝ) ×
    (Fin n_kv → Fin b → Fin ((t + 1) * g) → ℝ) ×
    (Fin n_kv → Fin b → Fin ((t + 1) * g) → ℝ) :=
  (wv_product n_kv g b (t + 1) (t + 1) d
    (fun k β g' τ σ =>
      local_exps (fun σ2 => masked_attn_weights n_kv g b t d query key segIds k β g' τ σ2) σ)
    value,
   fun k β m =>
    local_max (fun σ => masked_attn_weights n_kv g b t d query key segIds k β
      ⟨m.val % g, Nat.mod_lt _ (fin_mul_pos_right m)⟩
      ⟨m.val / g, by
        rw [Nat.div_lt_iff_lt_mul (fin_mul_pos_right m)]
        exact m.isLt⟩ σ),
   fun k β m =>
    local_sum (fun σ => masked_attn_weights n_kv g b t d query key segIds k β
      ⟨m.val % g, Nat.mod_lt _ (fin_mul_pos_right m)⟩
      ⟨m.val / g, by
        rw [Nat.div_lt_iff_lt_mul (fin_mul_pos_right m)]
        exact m.isLt⟩ σ))

/-! ## Causality of the masked scores (claim C2) -/

theorem masked_row_key_independent (n_kv g b t d : ℕ)
    (query : Fin (n_kv * g) → Fin b → Fin (t + 1) → Fin d → ℝ)
    (key key2 : Fin n_kv → Fin b → Fin (t + 1) → Fin d → ℝ)
    (segIds : Option (Fin b → Fin (t + 1) → ℤ)) (i : Fin (t + 1))
    (hkey : ∀ k β (σ : Fin (t + 1)) δ, σ.val ≤ i.val → key k β σ δ = key2 k β σ δ) :
    ∀ k β g' σ,
      masked_attn_weights n_kv g b t d query key segIds k β g' i σ =
      masked_attn_weights n_kv g b t d query key2 segIds k β g' i σ := by
  intro k β g' σ
  unfold masked_attn_weights apply_mask_to_logits generate_attention_mask_nonar
  dsimp only
  by_cases hm : (segment_mask segIds β i σ && causal_mask i σ) = true
  · have hc : causal_mask i σ = true := ((Bool.and_eq_true _ _).mp hm).2
    have hσ : σ.val ≤ i.val := of_decide_eq_true hc
    simp only [if_pos hm, if_pos zero_ge_half_mask]
    unfold qk_product
    apply Finset.sum_congr rfl
    intro δ _
    rw [hkey k β σ δ hσ]
  · simp only [if_neg hm, if_neg (not_le.mpr mask_lt_half_mask)]

/-- C2 (amended).  In the non-autoregressive (Train/Prefill) modes, the three
components returned by `apply_attention_dot` at query position `i` — the
unnormalized output, the row max and the row exp-sum — are unchanged between
two runs that differ only in the KEY entries at positions `j > i`; the causal
mask replaces every score at `j > i` by `DEFAULT_MASK_VALUE` regardless of the
key.  (Changing the VALUE entries at `j > i` is not covered: a forbidden
position keeps softmax weight `exp(DEFAULT_MASK_VALUE - rowMax)`, which is
exactly `exp 0 = 1` whenever the row's genuine scores are at or below the
sentinel, so such a value reaches the output — see the counterexample, whose
trace is exact in float32 arithmetic as well.) -/
theorem train_prefill_output_key_independent (n_kv g b t d : ℕ)
    (query : Fin (n_kv * g) → Fin b → Fin (t + 1) → Fin d → ℝ)
    (key key2 value : Fin n_kv → Fin b → Fin (t + 1) → Fin d → ℝ)
    (segIds : Option (Fin b → Fin (t + 1) → ℤ)) (i : Fin (t + 1))
    (hkey : ∀ k β (σ : Fin (t + 1)) δ, σ.val ≤ i.val → key k β σ δ = key2 k β σ δ) :
    (∀ h β δ,
      (apply_attention_dot n_kv g b t d query key value segIds).1 h β i δ =
      (apply_attention_dot n_kv g b t d query key2 value segIds).1 h β i δ) ∧
    (∀ k β (g' : Fin g),
      (apply_attention_dot n_kv g b t d query key value segIds).2.1 k β (merge_idx i g') =
      (apply_attention_dot n_kv g b t d query key2 value segIds).2.1 k β (merge_idx i g')) ∧
    (∀ k β (g' : Fin g),
      (apply_attention_dot n_kv g b t d query key value segIds).2.2 k β (merge_idx i g') =
      (apply_attention_dot n_kv g b t d query key2 value segIds).2.2 k β (merge_idx i g')) := by
  have hrow := masked_row_key_independent n_kv g b t d query key key2 segIds i hkey
  have hfun : ∀ k β g',
      (fun σ => masked_attn_weights n_kv g b t d query key segIds k β g' i σ) =
      (fun σ => masked_attn_weights n_kv g b t d query key2 segIds k β g' i σ) :=
    fun k β g' => funext (hrow k β g')
  have hdivmod : ∀ (g' : Fin g),
      ((⟨(merge_idx i g').val / g, by
        rw [Nat.div_lt_iff_lt_mul (fin_mul_pos_right (merge_idx i g'))]
        exact (merge_idx i g').isLt⟩ : Fin (t + 1)) = i) ∧
      ((⟨(merge_idx i g').val % g,
        Nat.mod_lt _ (fin_mul_pos_right (merge_idx i g'))⟩ : Fin g) = g') := by
    intro g'
    constructor
    · apply Fin.ext
      show (i.val * g + g'.val) / g = i.val
      rw [Nat.mul_comm i.val g, Nat.mul_add_div (Nat.lt_of_le_of_lt (Nat.zero_le _) g'.isLt)]
      rw [Nat.div_eq_of_lt g'.isLt]
      omega
    · apply Fin.ext
      show (i.val * g + g'.val) % g = g'.val
      rw [Nat.mul_comm i.val g, Nat.mul_add_mod]
      exact Nat.mod_eq_of_lt g'.isLt
  refine ⟨?_, ?_, ?_⟩
  · intro h β δ
    simp only [apply_attention_dot, wv_product]
    unfold wv_einsum
    apply Finset.sum_congr rfl
    intro σ _
    simp only [hfun]
  · intro k β g'
    have hgen : ∀ (τ : Fin (t + 1)) (g'' : Fin g), τ = i →
        local_max (fun σ => masked_attn_weights n_kv g b t d query key segIds k β g'' τ σ) =
        local_max (fun σ => masked_attn_weights n_kv g b t d query key2 segIds k β g'' τ σ) := by
      rintro τ g'' rfl
      exact congrArg local_max (hfun k β g'')
    simp only [apply_attention_dot]
    exact hgen _ _ (hdivmod g').1
  · intro k β g'
    have hgen : ∀ (τ : Fin (t + 1)) (g'' : Fin g), τ = i →
        local_sum (fun σ => masked_attn_weights n_kv g b t d query key segIds k β g'' τ σ) =
        local_sum (fun σ => masked_attn_weights n_kv g b t d query key2 segIds k β g'' τ σ) := by
      rintro τ g'' rfl
      exact congrArg local_sum (hfun k β g'')
    simp only [apply_attention_dot]
    exact hgen _ _ (hdivmod g').1

theorem c2_witness :
    (∀ (k β : Fin 1) (σ : Fin 2) (δ : Fin 1), σ.val ≤ (0 : Fin 2).val →
      (fun (_ : Fin 1) (_ : Fin 1) (_ : Fin 2) (_ : Fin 1) => (0 : ℝ)) k β σ δ =
      (fun (_ : Fin 1) (_ : Fin 1) (σ2 : Fin 2) (_ : Fin 1) =>
        if σ2.val = 0 then (0 : ℝ) else 1) k β σ δ) ∧
    (apply_attention_dot 1 1 1 1 1 (fun _ _ _ _ => (0 : ℝ))
      (fun _ _ _ _ => (0 : ℝ)) (fun _ _ _ _ => (0 : ℝ)) none).1 0 0 0 0 =
    (apply_attention_dot 1 1 1 1 1 (fun _ _ _ _ => (0 : ℝ))
      (fun _ _ σ2 _ => if σ2.val = 0 then (0 : ℝ) else 1)
      (fun _ _ _ _ => (0 : ℝ)) none).1 0 0 0 0 := by
  have hhyp : ∀ (k β : Fin 1) (σ : Fin 2) (δ : Fin 1), σ.val ≤ (0 : Fin 2).val →
      (fun (_ : Fin 1) (_ : Fin 1) (_ : Fin 2) (_ : Fin 1) => (0 : ℝ)) k β σ δ =
      (fun (_ : Fin 1) (_ : Fin 1) (σ2 : Fin 2) (_ : Fin 1) =>
        if σ2.val = 0 then (0 : ℝ) else 1) k β σ δ := by
    intro k β σ δ h
    have hσ : σ.val = 0 := Nat.le_zero.mp h
    simp [hσ]
  exact ⟨hhyp,
    (train_prefill_output_key_independent 1 1 1 1 1 (fun _ _ _ _ => (0 : ℝ))
      (fun _ _ _ _ => (0 : ℝ))
      (fun _ _ σ2 _ => if σ2.val = 0 then (0 : ℝ) else 1)
      (fun _ _ _ _ => (0 : ℝ)) none 0 hhyp).1 0 0 0⟩

theorem local_max_pair (w : Fin 2 → ℝ) : local_max w = max (w 0) (w 1) := by
  unfold local_max
  apply le_antisymm
  · apply Finset.sup'_le
    intro j _
    fin_cases j
    · exact le_max_left _ _
    · exact le_max_right _ _
  · apply max_le
    · exact Finset.le_sup' w (Finset.mem_univ 0)
    · exact Finset.le_sup' w (Finset.mem_univ 1)

/-- The diagonal score of the C2 counterexample, `(-2^63) * (3 * 2^63) =
-(3 * 2^126) ≈ -2.55e38`, lies strictly below the mask sentinel
`DEFAULT_MASK_VALUE ≈ -2.38e38` (and above the float32 minimum
`-(2 - 2^-23) * 2^127 ≈ -3.40e38`). -/
theorem score_below_sentinel :
    -(3 * (2 : ℝ) ^ (126 : ℕ)) ≤ DEFAULT_MASK_VALUE := by
  unfold DEFAULT_MASK_VALUE float32_max
  have h : (2 : ℝ) ^ (-23 : ℤ) = ((2 : ℝ) ^ (23 : ℕ))⁻¹ := by
    rw [zpow_neg]
    norm_num
  rw [h]
  norm_num

/-- C2 counterexample.  A change of a VALUE entry at key position `1 > 0`
changes the attention output at query position `0`.  The inputs are chosen so
that the trace below is also the exact float32 trace of the source (spec
section 8 admits arbitrary score magnitudes): the only query/key dot product
is `(-2^63) * (3 * 2^63) = -(3 * 2^126)`, a float32-exact product of
float32-exact operands, and it lies BELOW the mask sentinel, so the masked
row at query position 0 is `[-(3 * 2^126), DEFAULT_MASK_VALUE]` and its max
is `DEFAULT_MASK_VALUE` itself.  The forbidden position 1 then has weight
`exp (DEFAULT_MASK_VALUE - DEFAULT_MASK_VALUE) = exp 0 = 1` — exactly, in
float32 as in ℝ — while the weight of position 0 multiplies the value `0`
there (so its float32 underflow to `0.0` versus the tiny positive real makes
no difference to any compared value).  The two runs, differing only in the
value at position 1 (`0` versus `1`), give outputs `0` and `1` at query
position 0, in this embedding and in float32 alike. -/
theorem c2_counterexample :
    ¬ ((apply_attention_dot 1 1 1 1 1 (fun _ _ _ _ => -((2 : ℝ) ^ (63 : ℕ)))
        (fun _ _ _ _ => 3 * (2 : ℝ) ^ (63 : ℕ))
        (fun _ _ _ _ => (0 : ℝ)) none).1 0 0 0 0 =
       (apply_attention_dot 1 1 1 1 1 (fun _ _ _ _ => -((2 : ℝ) ^ (63 : ℕ)))
        (fun _ _ _ _ => 3 * (2 : ℝ) ^ (63 : ℕ))
        (fun _ _ σ2 _ => if σ2.val = 1 then (1 : ℝ) else 0) none).1 0 0 0 0) := by
  have hqk : ∀ (k β g' : Fin 1) (τ σ : Fin 2),
      qk_product 1 1 1 2 2 1 (fun _ _ _ _ => -((2 : ℝ) ^ (63 : ℕ)))
        (fun _ _ _ _ => 3 * (2 : ℝ) ^ (63 : ℕ))
        k β g' τ σ = -(3 * (2 : ℝ) ^ (126 : ℕ)) := by
    intro k β g' τ σ
    unfold qk_product reshaped_query
    rw [Fin.sum_univ_one]
    ring
  have hrow : ∀ (k β g' : Fin 1) (σ : Fin 2),
      masked_attn_weights 1 1 1 1 1 (fun _ _ _ _ => -((2 : ℝ) ^ (63 : ℕ)))
        (fun _ _ _ _ => 3 * (2 : ℝ) ^ (63 : ℕ)) none k β g' 0 σ =
      if σ.val = 0 then -(3 * (2 : ℝ) ^ (126 : ℕ)) else DEFAULT_MASK_VALUE := by
    intro k β g' σ
    unfold masked_attn_weights apply_mask_to_logits generate_attention_mask_nonar
    dsimp only
    by_cases hσ : σ.val = 0
    · have hc : (segment_mask (none : Option (Fin 1 → Fin 2 → ℤ)) β 0 σ &&
          causal_mask (0 : Fin 2) σ) = true := by
        simp [segment_mask, causal_mask, hσ]
      rw [if_pos hc, if_pos zero_ge_half_mask, hqk, if_pos hσ]
    · have hc : ¬ ((segment_mask (none : Option (Fin 1 → Fin 2 → ℤ)) β 0 σ &&
          causal_mask (0 : Fin 2) σ) = true) := by
        simp only [segment_mask, causal_mask, Bool.true_and, decide_eq_true_eq,
          Fin.val_zero]
        omega
      rw [if_neg hc, if_neg (not_le.mpr mask_lt_half_mask), if_neg hσ]
  have hrowf : ∀ (k β g' : Fin 1),
      (fun σ2 => masked_attn_weights 1 1 1 1 1
        (fun _ _ _ _ => -((2 : ℝ) ^ (63 : ℕ)))
        (fun _ _ _ _ => 3 * (2 : ℝ) ^ (63 : ℕ)) none k β g' 0 σ2) =
      (fun σ2 : Fin 2 => if σ2.val = 0 then -(3 * (2 : ℝ) ^ (126 : ℕ))
        else DEFAULT_MASK_VALUE) :=
    fun k β g' => funext (hrow k β g')
  have hmax : local_max (fun σ2 : Fin 2 =>
      if σ2.val = 0 then -(3 * (2 : ℝ) ^ (126 : ℕ)) else DEFAULT_MASK_VALUE) =
      DEFAULT_MASK_VALUE := by
    rw [local_max_pair]
    have h := score_below_sentinel
    norm_num at h ⊢
    exact h
  simp only [apply_attention_dot, wv_product, wv_einsum, hrowf]
  unfold local_exps
  rw [hmax]
  rw [Fin.sum_univ_two, Fin.sum_univ_two]
  simp only [Fin.val_zero, Fin.val_one]
  norm_num [sub_self, Real.exp_zero]

/-! ## Claim C9: `apply_mask_to_logits` behaviour -/

/-- C9.  `apply_mask_to_logits` keeps the logit wherever the mask is at least
half the sentinel (in particular wherever the additive bias is `0`), and at
every other position returns exactly `DEFAULT_MASK_VALUE`, independently of
the logit there; `DEFAULT_MASK_VALUE` is a finite negative real, so the
softmax weight `exp DEFAULT_MASK_VALUE` of a forbidden position is a
well-defined positive number, never a NaN. -/
theorem apply_mask_to_logits_spec {t s : ℕ} (logits mask : Fin t → Fin s → ℝ)
    (i : Fin t) (j : Fin s) :
    (DEFAULT_MASK_VALUE * 0.5 ≤ mask i j →
      apply_mask_to_logits logits mask i j = logits i j) ∧
    (mask i j < DEFAULT_MASK_VALUE * 0.5 →
      ∀ logits2 : Fin t → Fin s → ℝ,
        apply_mask_to_logits logits mask i j = DEFAULT_MASK_VALUE ∧
        apply_mask_to_logits logits mask i j = apply_mask_to_logits logits2 mask i j) ∧
    (mask i j = 0 → apply_mask_to_logits logits mask i j = logits i j) ∧
    (mask i j = DEFAULT_MASK_VALUE →
      apply_mask_to_logits logits mask i j = DEFAULT_MASK_VALUE) ∧
    DEFAULT_MASK_VALUE < 0 ∧ 0 < Real.exp DEFAULT_MASK_VALUE := by
  unfold apply_mask_to_logits
  refine ⟨?_, ?_, ?_, ?_, default_mask_value_neg, Real.exp_pos _⟩
  · intro h
    rw [if_pos h]
  · intro h logits2
    rw [if_neg (not_le.mpr h), if_neg (not_le.mpr h)]
    exact ⟨rfl, rfl⟩
  · intro h
    rw [h, if_pos zero_ge_half_mask]
  · intro h
    rw [h, if_neg (not_le.mpr mask_lt_half_mask)]

theorem c9_witness :
    ((fun (_ : Fin 1) (_ : Fin 1) => (0 : ℝ)) 0 0 = 0) ∧
    apply_mask_to_logits (fun (_ : Fin 1) (_ : Fin 1) => (3 : ℝ))
      (fun _ _ => (0 : ℝ)) 0 0 = 3 :=
  ⟨rfl, (apply_mask_to_logits_spec (fun _ _ => (3 : ℝ)) (fun _ _ => (0 : ℝ))
    0 0).2.2.1 rfl⟩

/-! ## Claim C8: the `float32_qk_product` upcast -/

/-- C8 counterexample.  With `float32_qk_product` configured on, a Prefill-mode
run does NOT upcast a bfloat16 query/key to float32: the guard of lines 472-474
requires `model_mode == MODEL_MODE_TRAIN`. -/
theorem c8_counterexample :
    qk_product_operand_dtype ModelMode.prefill true NumDType.bfloat16 ≠
      NumDType.float32 := by
  decide

/-- C8 (amended).  The `float32_qk_product` upcast of query and key before the
query-key product happens exactly in Train mode: with the flag on a Train-mode
run computes in float32 regardless of storage dtype, while in Prefill and
Autoregressive modes (and with the flag off) the storage dtype is kept
unchanged. -/
theorem float32_qk_product_upcast_train_only (mode : ModelMode)
    (flag : Bool) (storage : NumDType) :
    qk_product_operand_dtype ModelMode.train true storage = NumDType.float32 ∧
    (mode ≠ ModelMode.train → qk_product_operand_dtype mode flag storage = storage) ∧
    (qk_product_operand_dtype mode false storage = storage) := by
  refine ⟨rfl, ?_, ?_⟩
  · intro h
    unfold qk_product_operand_dtype
    rw [if_neg]
    intro hc
    exact h hc.1
  · unfold qk_product_operand_dtype
    rw [if_neg]
    intro hc
    exact Bool.false_ne_true hc.2

theorem c8_witness :
    (ModelMode.autoregressive ≠ ModelMode.train) ∧
    qk_product_operand_dtype ModelMode.train true NumDType.bfloat16 =
      NumDType.float32 ∧
    qk_product_operand_dtype ModelMode.autoregressive true NumDType.float16 =
      NumDType.float16 :=
  ⟨by decide,
   (float32_qk_product_upcast_train_only ModelMode.autoregressive true
     NumDType.bfloat16).1,
   (float32_qk_product_upcast_train_only ModelMode.autoregressive true
     NumDType.float16).2.1 (by decide)⟩

/-! ## KV cache model (`_get_prefill_cache` lines 639-706, `_get_ar_cache`
lines 781-866, `kv_cache_prefill` lines 868-994, `update_ar_key_value` lines
996-1105, `kv_cache_autoregressive` lines 1115-1184, `kv_cache` lines
1186-1214, `__call__` lines 1239-1313)

Cache tensors are total functions on 4-dimensional natural indices; the shapes
the code inspects are passed separately.  Cache contents are generic in the
element type `α` (the code is dtype-polymorphic at this level), which keeps
the claims decidable at concrete instances. -/

/-- Physical axis order of a cached tensor (`*_cache_axis_order`): a
permutation of the four logical cache axes `(CACHE_HEADS, CACHE_BATCH,
CACHE_SEQUENCE, CACHE_KV)` (line 122). -/
abbrev AxisOrder := Equiv.Perm (Fin 4)

/-- A rank-4 cache tensor. -/
def Tensor4 (α : Type) : Type := (Fin 4 → ℕ) → α

/-- `key_layout.index(CACHE_SEQUENCE)`: the position of the sequence axis in
the cached layout, where `cached_kv_layout` (line 615) places logical axis
`ord i` at cached position `i` and the logical layout has the sequence axis at
position 2. -/
def cached_kv_layout_seq_axis (ord : AxisOrder) : Fin 4 := ord.symm 2

/-- `reshape_kv_cache` (lines 594-613): `jnp.moveaxis` of a logical-layout
tensor into the cached axis order; the element at cached index `J` is the
logical element at `fun a => J (ord.symm a)`. -/
def reshape_kv_cache {α : Type} (ord : AxisOrder) (kv : Tensor4 α) : Tensor4 α :=
  fun J => kv (fun a => J (ord.symm a))

/-- `revert_kv_cache` (lines 576-592): the inverse `jnp.moveaxis`, taking a
cached-layout tensor back to the logical layout. -/
def revert_kv_cache {α : Type} (ord : AxisOrder) (kv : Tensor4 α) : Tensor4 α :=
  fun J => kv (fun i => J (ord i))

theorem revert_reshape_kv_cache {α : Type} (ord : AxisOrder) (kv : Tensor4 α) :
    revert_kv_cache ord (reshape_kv_cache ord kv) = kv := by
  funext J
  unfold revert_kv_cache reshape_kv_cache
  simp only [Equiv.apply_symm_apply]

/-- `lax.dynamic_update_index_in_dim` on a rank-4 tensor with a
singleton-extent update along axis `ax` (lines 1058, 1075): the start index is
clamped into the `size`-sized extent, as `dynamic_update_slice` clamps. -/
def dynamic_update_index_in_dim {α : Type} (size : ℕ) (t u : Tensor4 α)
    (idx : ℕ) (ax : Fin 4) : Tensor4 α :=
  fun J => if J ax = min idx (size - 1) then u (Function.update J ax 0) else t J

/-- The ragged write `ar_key.at[tuple(positions)].set(token)` (lines
1053-1056, 1070-1073): `positions` holds a full slice on every axis except the
sequence axis `ax`, where it holds the integer vector `lengths` over the
`batchN` batch entries.  Advanced indexing with one integer array among slices
scatters the broadcast singleton-extent token slab to every listed sequence
index; out-of-bounds indices (`>= cap`, the sequence extent) are dropped (the
default `.at[].set` scatter mode). -/
def ragged_token_set {α : Type} (cap batchN : ℕ) (t u : Tensor4 α)
    (lengths : ℕ → ℕ) (ax : Fin 4) : Tensor4 α :=
  fun J =>
    if ∃ bi ∈ Finset.range batchN, lengths bi = J ax ∧ lengths bi < cap
    then u (Function.update J ax 0) else t J

/-- The segment-id write of `kv_cache_autoregressive` (lines 1163-1166):
`dynamic_update_index_in_dim(cache_ar_segment_id, active_indicator,
squeeze(cache_ar_index), 1)` writes the `(batch, 1)` active-indicator block at
the cursor column (clamped into the `cap` columns), rows `0..batchN-1`. -/
def segment_id_mark_active (cap batchN : ℕ) (seg : ℕ → ℕ → ℤ) (idx : ℕ) :
    ℕ → ℕ → ℤ :=
  fun b' s' =>
    if b' < batchN ∧ s' = min idx (cap - 1)
    then DECODING_ACTIVE_SEQUENCE_INDICATOR else seg b' s'

/-- Modelled from the spec: the quantization operations `quantize_kv` and
`unquantize_kv` live in `layers/quantizations.py`, which is not among the
sources; the spec (section 3, QuantizedValue) fixes only the reconstruction
`tensor_f = lowPrecisionTensor * scale`.  They are kept abstract — no claim
depends on their arithmetic. -/
structure QuantOps (α : Type) where
  quantize_kv : Tensor4 α → Tensor4 α × Tensor4 α
  unquantize_kv : Tensor4 α → Tensor4 α → Tensor4 α

/-- The prefill cache region: key/value (with optional quantization scales)
and the `(batch, prefillCapacity)` segment-id tensor (lines 639-706). -/
structure PrefillCache (α : Type) where
  key : Tensor4 α
  value : Tensor4 α
  key_scale : Option (Tensor4 α)
  value_scale : Option (Tensor4 α)
  segment_id : ℕ → ℕ → ℤ

/-- The autoregressive cache region: key/value (with optional scales), the
segment-id tensor, the shared scalar write cursor `cache_ar_index` and the
per-batch-entry `cache_ar_lengths` counters (lines 781-866). -/
structure ARCache (α : Type) where
  key : Tensor4 α
  value : Tensor4 α
  key_scale : Option (Tensor4 α)
  value_scale : Option (Tensor4 α)
  segment_id : ℕ → ℕ → ℤ
  index : ℕ
  lengths : ℕ → ℕ

/-- The flax cache collection: each region exists once its `self.variable`
calls have run (`has_variable("cache", "cache_ar_index")` is `ar.isSome`). -/
structure CacheState (α : Type) where
  prefill : Option (PrefillCache α)
  ar : Option (ARCache α)

/-- The construction-time configuration of `AttentionOp` relevant to the
cache. -/
structure AttentionConfig where
  max_target_length : ℕ
  max_prefill_predict_length : ℕ
  quantize_kvcache : Bool
  prefill_cache_axis_order : AxisOrder
  ar_cache_axis_order : AxisOrder

/-- `cache_length = self.max_target_length - self.max_prefill_predict_length`
(line 788): the AR region capacity. -/
def AttentionConfig.cache_length (cfg : AttentionConfig) : ℕ :=
  cfg.max_target_length - cfg.max_prefill_predict_length

/-- Zero-initialized AR cache as allocated by `_get_ar_cache` (lines 781-866):
`jnp.zeros` key/value (and scales when quantizing), zero segment ids, zero
lengths, cursor 0. -/
def init_ar_cache (cfg : AttentionConfig) (α : Type) [Zero α] : ARCache α :=
  { key := fun _ => 0
    value := fun _ => 0
    key_scale := if cfg.quantize_kvcache then some (fun _ => 0) else none
    value_scale := if cfg.quantize_kvcache then some (fun _ => 0) else none
    segment_id := fun _ _ => 0
    index := 0
    lengths := fun _ => 0 }

/-- Zero-initialized prefill cache as allocated by `_get_prefill_cache`
(lines 639-706). -/
def init_prefill_cache (cfg : AttentionConfig) (α : Type) [Zero α] :
    PrefillCache α :=
  { key := fun _ => 0
    value := fun _ => 0
    key_scale := if cfg.quantize_kvcache then some (fun _ => 0) else none
    value_scale := if cfg.quantize_kvcache then some (fun _ => 0) else none
    segment_id := fun _ _ => 0 }

/-- `kv_cache_prefill` (lines 868-994): lazily allocate the AR region when it
does not exist yet (lines 896-911), overwrite the prefill region wholesale
with the reshaped (and, when `quantize_kvcache`, quantized) key/value (lines
930-944), record the supplied segment ids (lines 946-947), and return the
inputs unchanged (line 994). -/
def kv_cache_prefill {α : Type} (cfg : AttentionConfig) (qz : QuantOps α)
    [Zero α] (st : CacheState α) (key value : Tensor4 α)
    (decoder_segment_ids : Option (ℕ → ℕ → ℤ)) :
    CacheState α × (Tensor4 α × Tensor4 α × Option (ℕ → ℕ → ℤ)) :=
  let ar' := match st.ar with
    | some a => some a
    | none => some (init_ar_cache cfg α)
  let key_shaped := reshape_kv_cache cfg.prefill_cache_axis_order key
  let value_shaped := reshape_kv_cache cfg.prefill_cache_axis_order value
  let seg := match decoder_segment_ids with
    | some s => s
    | none => (st.prefill.getD (init_prefill_cache cfg α)).segment_id
  let pf : PrefillCache α :=
    if cfg.quantize_kvcache then
      { key := (qz.quantize_kv key_shaped).1
        value := (qz.quantize_kv value_shaped).1
        key_scale := some (qz.quantize_kv key_shaped).2
        value_scale := some (qz.quantize_kv value_shaped).2
        segment_id := seg }
    else
      { key := key_shaped
        value := value_shaped
        key_scale := none
        value_scale := none
        segment_id := seg }
  ({ prefill := some pf, ar := ar' }, (key, value, decoder_segment_ids))

/-- The token content written into the AR cache by `update_ar_key_value`: the
ar-layout reshape of the incoming single token, quantized when
`quantize_kvcache` is on (lines 1025-1042). -/
def stored_ar_token {α : Type} (cfg : AttentionConfig) (qz : QuantOps α)
    (tok : Tensor4 α) : Tensor4 α :=
  if cfg.quantize_kvcache
  then (qz.quantize_kv (reshape_kv_cache cfg.ar_cache_axis_order tok)).1
  else reshape_kv_cache cfg.ar_cache_axis_order tok

/-- The scale slice of a quantized token (lines 1041-1042). -/
def stored_ar_token_scale {α : Type} (cfg : AttentionConfig) (qz : QuantOps α)
    (tok : Tensor4 α) : Tensor4 α :=
  (qz.quantize_kv (reshape_kv_cache cfg.ar_cache_axis_order tok)).2

/-- `update_ar_key_value` (lines 996-1105): reshape (and optionally quantize)
the one-token key/value; scatter it into the AR cache along the cached
sequence axis — at each batch entry's `lengths` in ragged mode, at the shared
cursor (`one_hot_indices = cache_ar_index`) in indexed mode; write the scale
slices (always at the cursor, lines 1083-1092); return the updated cache
together with the key/value reverted to the logical layout (unquantized when
quantization is on, lines 1101-1105). -/
def update_ar_key_value {α : Type} (cfg : AttentionConfig) (qz : QuantOps α)
    [Zero α] (a : ARCache α) (one_token_key one_token_value : Tensor4 α)
    (batchN : ℕ) (use_ragged : Bool) : ARCache α × Tensor4 α × Tensor4 α :=
  let ax := cached_kv_layout_seq_axis cfg.ar_cache_axis_order
  let kStore := stored_ar_token cfg qz one_token_key
  let vStore := stored_ar_token cfg qz one_token_value
  let key' :=
    if use_ragged
    then ragged_token_set cfg.cache_length batchN a.key kStore a.lengths ax
    else dynamic_update_index_in_dim cfg.cache_length a.key kStore a.index ax
  let value' :=
    if use_ragged
    then ragged_token_set cfg.cache_length batchN a.value vStore a.lengths ax
    else dynamic_update_index_in_dim cfg.cache_length a.value vStore a.index ax
  let key_scale' :=
    if cfg.quantize_kvcache
    then some (dynamic_update_index_in_dim cfg.cache_length
      (a.key_scale.getD (fun _ => 0))
      (stored_ar_token_scale cfg qz one_token_key) a.index ax)
    else a.key_scale
  let value_scale' :=
    if cfg.quantize_kvcache
    then some (dynamic_update_index_in_dim cfg.cache_length
      (a.value_scale.getD (fun _ => 0))
      (stored_ar_token_scale cfg qz one_token_value) a.index ax)
    else a.value_scale
  let returned_key :=
    if cfg.quantize_kvcache
    then qz.unquantize_kv key' (key_scale'.getD (fun _ => 0))
    else key'
  let returned_value :=
    if cfg.quantize_kvcache
    then qz.unquantize_kv value' (value_scale'.getD (fun _ => 0))
    else value'
  ({ a with
      key := key'
      value := value'
      key_scale := key_scale'
      value_scale := value_scale' },
   revert_kv_cache cfg.ar_cache_axis_order returned_key,
   revert_kv_cache cfg.ar_cache_axis_order returned_value)

/-- `prefill_cache_var_model_var` (lines 1107-1113): read a prefill cache
variable back in logical layout, unquantizing when needed. -/
def prefill_cache_var_model_var {α : Type} (cfg : AttentionConfig)
    (qz : QuantOps α) [Zero α] (raw : Tensor4 α) (scale : Option (Tensor4 α))
    (ord : AxisOrder) : Tensor4 α :=
  if cfg.quantize_kvcache
  then revert_kv_cache ord (qz.unquantize_kv raw (scale.getD (fun _ => 0)))
  else revert_kv_cache ord raw

/-- The error raised when the incoming sequence length is not 1 (line 1138). -/
def seq_len_error_msg : String :=
  "Sequence length should be 1 during autoregression"

/-- The error raised when the AR cache has not been seeded (line 1141). -/
def uninitialized_cache_error_msg : String :=
  "Error, we cannot do autoregression if the KV Cache has not been seeded"

/-- `kv_cache_autoregressive` (lines 1115-1184).  The incoming key has logical
shape `kshape = (heads, batch, sequence, kv_head_size)`.  Both validations
(sequence length exactly 1, AR cache already seeded) happen before any cache
mutation — in the source both `raise` statements (lines 1138, 1141) precede
every cache-variable write, and here a failing call returns an error carrying
no successor state, so the caller's cache is untouched.  On success: the token
is scattered by `update_ar_key_value`, the segment-id slot at the shared
cursor is marked active, the cursor advances modulo `cache_length`, every
`lengths` entry is incremented by one (no clamp — line 1170 is commented out),
and both regions are read back. -/
def kv_cache_autoregressive {α : Type} (cfg : AttentionConfig)
    (qz : QuantOps α) [Zero α] (st : CacheState α) (key value : Tensor4 α)
    (kshape : Fin 4 → ℕ) (use_ragged : Bool) :
    Except String (CacheState α ×
      ((Tensor4 α × Tensor4 α × (ℕ → ℕ → ℤ)) ×
       (Tensor4 α × Tensor4 α × (ℕ → ℕ → ℤ) × (ℕ → ℕ)))) :=
  let sequence := kshape 2
  let batch := kshape 1
  if sequence ≠ 1 then Except.error seq_len_error_msg
  else
    match st.ar with
    | none => Except.error uninitialized_cache_error_msg
    | some a =>
      let upd := update_ar_key_value cfg qz a key value batch use_ragged
      let seg' := segment_id_mark_active cfg.cache_length batch
        (upd.1).segment_id a.index
      let a2 : ARCache α :=
        { upd.1 with
            segment_id := seg'
            index := (a.index + 1) % cfg.cache_length
            lengths := fun b => (upd.1).lengths b + 1 }
      let pf := st.prefill.getD (init_prefill_cache cfg α)
      let cached_prefill :=
        (prefill_cache_var_model_var cfg qz pf.key pf.key_scale
          cfg.prefill_cache_axis_order,
         prefill_cache_var_model_var cfg qz pf.value pf.value_scale
          cfg.prefill_cache_axis_order,
         pf.segment_id)
      Except.ok ({ prefill := some pf, ar := some a2 },
        (cached_prefill, (upd.2.1, upd.2.2, seg', a2.lengths)))

/-- `kv_cache` (lines 1186-1214): the `key.shape != value.shape` guard and the
mode dispatch. -/
def kv_cache {α : Type} (cfg : AttentionConfig) (qz : QuantOps α) [Zero α]
    (st : CacheState α) (key value : Tensor4 α) (kshape vshape : Fin 4 → ℕ)
    (decoder_segment_ids : Option (ℕ → ℕ → ℤ)) (mode : ModelMode)
    (use_ragged : Bool) :
    Except String (CacheState α ×
      ((Tensor4 α × Tensor4 α × Option (ℕ → ℕ → ℤ)) ×
       Option (Tensor4 α × Tensor4 α × (ℕ → ℕ → ℤ) × (ℕ → ℕ)))) :=
  if kshape ≠ vshape then Except.error "Cannot KV cache with mismatched shapes"
  else
    match mode with
    | ModelMode.train => Except.ok (st, ((key, value, decoder_segment_ids), none))
    | ModelMode.prefill =>
      let r := kv_cache_prefill cfg qz st key value decoder_segment_ids
      Except.ok (r.1, (r.2, none))
    | ModelMode.autoregressive =>
      match kv_cache_autoregressive cfg qz st key value kshape use_ragged with
      | Except.error e => Except.error e
      | Except.ok (st', (pfc, arc)) =>
        Except.ok (st', ((pfc.1, pfc.2.1, some pfc.2.2), some arc))

/-- The constant `use_ragged = True` set at the top of `AttentionOp.__call__`
(line 1241). -/
def attention_call_use_ragged : Bool := true

/-- Which kernel an `apply_attention` call (lines 192-205) runs: the ragged
kernel (`ragged_attention`, external `ragged_mqa`) when `use_ragged` is set
and the mode is autoregressive, otherwise the dot-product path
(`apply_attention_dot`, embedded above). -/
inductive AttnPath
  | raggedKernel
  | dotProduct
deriving DecidableEq

/-- The branch condition of `apply_attention` (line 195). -/
def apply_attention_path (use_ragged : Bool) (mode : ModelMode) : AttnPath :=
  if use_ragged = true ∧ mode = ModelMode.autoregressive
  then AttnPath.raggedKernel else AttnPath.dotProduct

/-- The attention computations `__call__` performs after the cache step: a
single chunk normalized by division (lines 1286-1289) when there is no AR
cache output, or the prefill and AR chunks each computed by `apply_attention`
and merged by `normalize_attention` (lines 1291-1311). -/
inductive AttnDispatch
  | single (p : AttnPath)
  | merged (p q : AttnPath)
deriving DecidableEq

/-- `AttentionOp.__call__` (lines 1239-1313) at the cache/dispatch level: the
cache step runs with the constant `use_ragged = True`, and each
`apply_attention` call is recorded by the path it takes (the value-level
arithmetic of the dot path and of the merge is embedded separately; the
ragged kernel `kernels.ragged_attention.ragged_mqa` is an external
collaborator). -/
def AttentionOp_call {α : Type} (cfg : AttentionConfig) (qz : QuantOps α)
    [Zero α] (st : CacheState α) (key value : Tensor4 α)
    (kshape vshape : Fin 4 → ℕ) (decoder_segment_ids : Option (ℕ → ℕ → ℤ))
    (mode : ModelMode) : Except String (CacheState α × AttnDispatch) :=
  match kv_cache cfg qz st key value kshape vshape decoder_segment_ids mode
      attention_call_use_ragged with
  | Except.error e => Except.error e
  | Except.ok (st', (_, arc)) =>
    match arc with
    | none => Except.ok (st',
        AttnDispatch.single (apply_attention_path attention_call_use_ragged mode))
    | some _ => Except.ok (st',
        AttnDispatch.merged (apply_attention_path attention_call_use_ragged mode)
          (apply_attention_path attention_call_use_ragged mode))

/-- `n` successive decode calls (`kv_cache_autoregressive`) with a stream of
single-token keys/values; a failing call leaves the state unchanged. -/
def decode_iter {α : Type} (cfg : AttentionConfig) (qz : QuantOps α) [Zero α]
    (tokens : ℕ → Tensor4 α × Tensor4 α) (kshape : Fin 4 → ℕ)
    (use_ragged : Bool) : ℕ → CacheState α → CacheState α
  | 0, st => st
  | n + 1, st =>
    let st' := decode_iter cfg qz tokens kshape use_ragged n st
    match kv_cache_autoregressive cfg qz st' (tokens n).1 (tokens n).2 kshape
        use_ragged with
    | Except.ok r => r.1
    | Except.error _ => st'

/-! ## Helper lemmas on the decode transition -/

/-- Lengths projection of a cache state (`0` when the AR region is absent). -/
def ar_lengths_at {α : Type} (st : CacheState α) (b : ℕ) : ℕ :=
  (st.ar.map (fun a => a.lengths b)).getD 0

/-- The successor state of a successful `kv_cache_autoregressive` call (the
`Except.ok` branch, spelled out). -/
def decode_state_after {α : Type} (cfg : AttentionConfig) (qz : QuantOps α)
    [Zero α] (st : CacheState α) (key value : Tensor4 α) (batch : ℕ)
    (ur : Bool) (a : ARCache α) : CacheState α :=
  { prefill := some (st.prefill.getD (init_prefill_cache cfg α))
    ar := some
      { (update_ar_key_value cfg qz a key value batch ur).1 with
          segment_id := segment_id_mark_active cfg.cache_length batch
            ((update_ar_key_value cfg qz a key value batch ur).1).segment_id a.index
          index := (a.index + 1) % cfg.cache_length
          lengths := fun b =>
            ((update_ar_key_value cfg qz a key value batch ur).1).lengths b + 1 } }

/-- The returned tuple of a successful `kv_cache_autoregressive` call. -/
def decode_out_after {α : Type} (cfg : AttentionConfig) (qz : QuantOps α)
    [Zero α] (st : CacheState α) (key value : Tensor4 α) (batch : ℕ)
    (ur : Bool) (a : ARCache α) :
    (Tensor4 α × Tensor4 α × (ℕ → ℕ → ℤ)) ×
    (Tensor4 α × Tensor4 α × (ℕ → ℕ → ℤ) × (ℕ → ℕ)) :=
  ((prefill_cache_var_model_var cfg qz
      (st.prefill.getD (init_prefill_cache cfg α)).key
      (st.prefill.getD (init_prefill_cache cfg α)).key_scale
      cfg.prefill_cache_axis_order,
    prefill_cache_var_model_var cfg qz
      (st.prefill.getD (init_prefill_cache cfg α)).value
      (st.prefill.getD (init_prefill_cache cfg α)).value_scale
      cfg.prefill_cache_axis_order,
    (st.prefill.getD (init_prefill_cache cfg α)).segment_id),
   ((update_ar_key_value cfg qz a key value batch ur).2.1,
    (update_ar_key_value cfg qz a key value batch ur).2.2,
    segment_id_mark_active cfg.cache_length batch
      ((update_ar_key_value cfg qz a key value batch ur).1).segment_id a.index,
    fun b => ((update_ar_key_value cfg qz a key value batch ur).1).lengths b + 1))

theorem update_ar_key_value_lengths {α : Type} (cfg : AttentionConfig)
    (qz : QuantOps α) [Zero α] (a : ARCache α) (k v : Tensor4 α) (bN : ℕ)
    (ur : Bool) : ((update_ar_key_value cfg qz a k v bN ur).1).lengths = a.lengths :=
  rfl

theorem update_ar_key_value_segment_id {α : Type} (cfg : AttentionConfig)
    (qz : QuantOps α) [Zero α] (a : ARCache α) (k v : Tensor4 α) (bN : ℕ)
    (ur : Bool) :
    ((update_ar_key_value cfg qz a k v bN ur).1).segment_id = a.segment_id :=
  rfl

theorem update_ar_key_value_key_indexed {α : Type} (cfg : AttentionConfig)
    (qz : QuantOps α) [Zero α] (a : ARCache α) (k v : Tensor4 α) (bN : ℕ) :
    ((update_ar_key_value cfg qz a k v bN false).1).key =
      dynamic_update_index_in_dim cfg.cache_length a.key
        (stored_ar_token cfg qz k) a.index
        (cached_kv_layout_seq_axis cfg.ar_cache_axis_order) :=
  rfl

theorem update_ar_key_value_key_ragged {α : Type} (cfg : AttentionConfig)
    (qz : QuantOps α) [Zero α] (a : ARCache α) (k v : Tensor4 α) (bN : ℕ) :
    ((update_ar_key_value cfg qz a k v bN true).1).key =
      ragged_token_set cfg.cache_length bN a.key
        (stored_ar_token cfg qz k) a.lengths
        (cached_kv_layout_seq_axis cfg.ar_cache_axis_order) :=
  rfl

theorem update_ar_key_value_value_ragged {α : Type} (cfg : AttentionConfig)
    (qz : QuantOps α) [Zero α] (a : ARCache α) (k v : Tensor4 α) (bN : ℕ) :
    ((update_ar_key_value cfg qz a k v bN true).1).value =
      ragged_token_set cfg.cache_length bN a.value
        (stored_ar_token cfg qz v) a.lengths
        (cached_kv_layout_seq_axis cfg.ar_cache_axis_order) :=
  rfl

theorem decode_ok_eq {α : Type} (cfg : AttentionConfig) (qz : QuantOps α)
    [Zero α] (st : CacheState α) (key value : Tensor4 α) (kshape : Fin 4 → ℕ)
    (ur : Bool) (a : ARCache α) (hseq : kshape 2 = 1) (har : st.ar = some a) :
    kv_cache_autoregressive cfg qz st key value kshape ur =
      Except.ok (decode_state_after cfg qz st key value (kshape 1) ur a,
        decode_out_after cfg qz st key value (kshape 1) ur a) := by
  unfold kv_cache_autoregressive
  rw [har]
  dsimp only
  rw [if_neg (fun h => h hseq)]
  rfl

/-- Every successful decode starts from an existing AR cache and produces the
spelled-out successor. -/
theorem decode_ok_inv {α : Type} (cfg : AttentionConfig) (qz : QuantOps α)
    [Zero α] (st : CacheState α) (key value : Tensor4 α) (kshape : Fin 4 → ℕ)
    (ur : Bool) (r : CacheState α ×
      ((Tensor4 α × Tensor4 α × (ℕ → ℕ → ℤ)) ×
       (Tensor4 α × Tensor4 α × (ℕ → ℕ → ℤ) × (ℕ → ℕ))))
    (h : kv_cache_autoregressive cfg qz st key value kshape ur = Except.ok r) :
    ∃ a, st.ar = some a ∧
      r.1 = decode_state_after cfg qz st key value (kshape 1) ur a := by
  by_cases hs : kshape 2 = 1
  · cases har : st.ar with
    | none =>
      unfold kv_cache_autoregressive at h
      rw [har] at h
      dsimp only at h
      rw [if_neg (fun hh => hh hs)] at h
      exact absurd h (by simp)
    | some a =>
      rw [decode_ok_eq cfg qz st key value kshape ur a hs har] at h
      exact ⟨a, rfl, by rw [← (Except.ok.inj h)]⟩
  · unfold kv_cache_autoregressive at h
    rw [if_pos hs] at h
    exact absurd h (by simp)

theorem decode_iter_succ {α : Type} (cfg : AttentionConfig) (qz : QuantOps α)
    [Zero α] (tokens : ℕ → Tensor4 α × Tensor4 α) (kshape : Fin 4 → ℕ)
    (ur : Bool) (n : ℕ) (st : CacheState α) :
    decode_iter cfg qz tokens kshape ur (n + 1) st =
      match kv_cache_autoregressive cfg qz (decode_iter cfg qz tokens kshape ur n st)
          (tokens n).1 (tokens n).2 kshape ur with
      | Except.ok r => r.1
      | Except.error _ => decode_iter cfg qz tokens kshape ur n st :=
  rfl

/-- Iterated decode from an AR cache with in-range cursor: the region stays
allocated, the cursor follows `(index + n) % cache_length` and stays in
range, and every `lengths` entry grows by exactly `n`. -/
theorem decode_iter_ar_props {α : Type} (cfg : AttentionConfig)
    (qz : QuantOps α) [Zero α] (tokens : ℕ → Tensor4 α × Tensor4 α)
    (kshape : Fin 4 → ℕ) (ur : Bool) (hseq : kshape 2 = 1) :
    ∀ (n : ℕ) (st : CacheState α) (a : ARCache α), st.ar = some a →
      a.index < cfg.cache_length →
      ∃ a', (decode_iter cfg qz tokens kshape ur n st).ar = some a' ∧
        a'.index = (a.index + n) % cfg.cache_length ∧
        a'.index < cfg.cache_length ∧
        (∀ b, a'.lengths b = a.lengths b + n) := by
  intro n
  induction n with
  | zero =>
    intro st a har hidx
    refine ⟨a, har, ?_, hidx, fun b => rfl⟩
    rw [Nat.add_zero, Nat.mod_eq_of_lt hidx]
  | succ n ih =>
    intro st a har hidx
    obtain ⟨a', ha', hidx', hlt', hlen'⟩ := ih st a har hidx
    have hok := decode_ok_eq cfg qz (decode_iter cfg qz tokens kshape ur n st)
      (tokens n).1 (tokens n).2 kshape ur a' hseq ha'
    refine ⟨{ (update_ar_key_value cfg qz a' (tokens n).1 (tokens n).2 (kshape 1) ur).1 with
        segment_id := segment_id_mark_active cfg.cache_length (kshape 1)
          ((update_ar_key_value cfg qz a' (tokens n).1 (tokens n).2 (kshape 1) ur).1).segment_id
          a'.index
        index := (a'.index + 1) % cfg.cache_length
        lengths := fun b =>
          ((update_ar_key_value cfg qz a' (tokens n).1 (tokens n).2 (kshape 1) ur).1).lengths b + 1 },
      ?_, ?_, ?_, ?_⟩
    · rw [decode_iter_succ, hok]
      rfl
    · show (a'.index + 1) % cfg.cache_length = (a.index + (n + 1)) % cfg.cache_length
      rw [hidx', Nat.mod_add_mod, Nat.add_assoc]
    · show (a'.index + 1) % cfg.cache_length < cfg.cache_length
      exact Nat.mod_lt _ (Nat.lt_of_le_of_lt (Nat.zero_le _) hlt')
    · intro b
      show ((update_ar_key_value cfg qz a' (tokens n).1 (tokens n).2 (kshape 1) ur).1).lengths b + 1 =
        a.lengths b + (n + 1)
      rw [update_ar_key_value_lengths, hlen' b]
      omega

/-- `decode_iter` never decreases any `lengths` entry. -/
theorem decode_iter_lengths_mono {α : Type} (cfg : AttentionConfig)
    (qz : QuantOps α) [Zero α] (tokens : ℕ → Tensor4 α × Tensor4 α)
    (kshape : Fin 4 → ℕ) (ur : Bool) :
    ∀ (n : ℕ) (st : CacheState α) (b : ℕ),
      ar_lengths_at st b ≤ ar_lengths_at (decode_iter cfg qz tokens kshape ur n st) b := by
  intro n
  induction n with
  | zero => intro st b; exact le_refl _
  | succ n ih =>
    intro st b
    refine le_trans (ih st b) ?_
    rw [decode_iter_succ]
    cases hres : kv_cache_autoregressive cfg qz
        (decode_iter cfg qz tokens kshape ur n st) (tokens n).1 (tokens n).2
        kshape ur with
    | error e => exact le_refl _
    | ok r =>
      obtain ⟨a, har, hst⟩ := decode_ok_inv cfg qz _ _ _ _ _ _ hres
      dsimp only
      rw [hst]
      unfold ar_lengths_at decode_state_after
      rw [har]
      simp only [Option.map_some, Option.getD_some]
      rw [update_ar_key_value_lengths]
      exact Nat.le_succ _

/-! ## Claim C3: decode validation and atomicity -/

/-- C3.  `kv_cache_autoregressive` fails with the sequence-length error when
the incoming key/value sequence length is not exactly 1, and with the
initialization error when the AR cache has not been seeded; both validations
run before any mutation (in the source both `raise` statements precede every
cache-variable write), so a failing call produces an error and no successor
state — iterating decode through a failing call leaves the cache state
exactly as it was. -/
theorem decode_validates_before_mutating {α : Type} (cfg : AttentionConfig)
    (qz : QuantOps α) [Zero α] (st : CacheState α) (key value : Tensor4 α)
    (kshape : Fin 4 → ℕ) (ur : Bool) :
    (kshape 2 ≠ 1 →
      kv_cache_autoregressive cfg qz st key value kshape ur =
        Except.error seq_len_error_msg) ∧
    (kshape 2 = 1 → st.ar = none →
      kv_cache_autoregressive cfg qz st key value kshape ur =
        Except.error uninitialized_cache_error_msg) ∧
    (∀ tokens0 : ℕ → Tensor4 α × Tensor4 α, (kshape 2 ≠ 1 ∨ st.ar = none) →
      decode_iter cfg qz tokens0 kshape ur 1 st = st) := by
  refine ⟨?_, ?_, ?_⟩
  · intro h
    unfold kv_cache_autoregressive
    dsimp only
    rw [if_pos h]
  · intro hs har
    unfold kv_cache_autoregressive
    rw [har]
    dsimp only
    rw [if_neg (fun h => h hs)]
  · intro tokens0 h
    have herr : ∃ e, kv_cache_autoregressive cfg qz st (tokens0 0).1 (tokens0 0).2
        kshape ur = Except.error e := by
      by_cases hs : kshape 2 = 1
      · cases h with
        | inl h1 => exact absurd hs h1
        | inr h2 =>
          refine ⟨uninitialized_cache_error_msg, ?_⟩
          unfold kv_cache_autoregressive
          rw [h2]
          dsimp only
          rw [if_neg (fun hh => hh hs)]
      · refine ⟨seq_len_error_msg, ?_⟩
        unfold kv_cache_autoregressive
        dsimp only
        rw [if_pos hs]
    obtain ⟨e, he⟩ := herr
    rw [decode_iter_succ]
    rw [show decode_iter cfg qz tokens0 kshape ur 0 st = st from rfl]
    rw [he]

theorem c3_witness :
    ((fun _ : Fin 4 => 2) 2 ≠ 1) ∧
    kv_cache_autoregressive (⟨4, 1, false, 1, 1⟩ : AttentionConfig)
      (⟨fun t => (t, t), fun t _ => t⟩ : QuantOps ℤ)
      (⟨none, none⟩ : CacheState ℤ) (fun _ => 0) (fun _ => 0)
      (fun _ => 2) true = Except.error seq_len_error_msg ∧
    kv_cache_autoregressive (⟨4, 1, false, 1, 1⟩ : AttentionConfig)
      (⟨fun t => (t, t), fun t _ => t⟩ : QuantOps ℤ)
      (⟨none, none⟩ : CacheState ℤ) (fun _ => 0) (fun _ => 0)
      (fun _ => 1) true = Except.error uninitialized_cache_error_msg :=
  ⟨by decide,
   (decode_validates_before_mutating (⟨4, 1, false, 1, 1⟩ : AttentionConfig)
     (⟨fun t => (t, t), fun t _ => t⟩ : QuantOps ℤ)
     (⟨none, none⟩ : CacheState ℤ) (fun _ => 0) (fun _ => 0)
     (fun _ => 2) true).1 (by decide),
   (decode_validates_before_mutating (⟨4, 1, false, 1, 1⟩ : AttentionConfig)
     (⟨fun t => (t, t), fun t _ => t⟩ : QuantOps ℤ)
     (⟨none, none⟩ : CacheState ℤ) (fun _ => 0) (fun _ => 0)
     (fun _ => 1) true).2.1 rfl rfl⟩

/-! ## Claim C4: cursor advance, wrap, and overwrite (indexed mode) -/

/-- C4.  Every successful decode advances the shared cursor to
`(index + 1) % cache_length` (which stays in range); after exactly
`cache_length` decode steps the cursor is back at its initial value; the
indexed-mode write position of step `n + cache_length` coincides with that of
step `n`; and immediately after step `n` the cache content at its write slot
`(index + n) % cache_length` is that step's token — so the wrapped write
overwrites the slot written `cache_length` steps earlier. -/
theorem decode_cursor_wraps {α : Type} (cfg : AttentionConfig)
    (qz : QuantOps α) [Zero α] (tokens : ℕ → Tensor4 α × Tensor4 α)
    (kshape : Fin 4 → ℕ) (st : CacheState α) (a : ARCache α)
    (hseq : kshape 2 = 1) (har : st.ar = some a)
    (hcap : 0 < cfg.cache_length) (hidx : a.index < cfg.cache_length) :
    (∃ r, kv_cache_autoregressive cfg qz st (tokens 0).1 (tokens 0).2 kshape false =
        Except.ok r ∧
      ∃ a2, r.1.ar = some a2 ∧
        a2.index = (a.index + 1) % cfg.cache_length ∧
        a2.index < cfg.cache_length) ∧
    (∃ a', (decode_iter cfg qz tokens kshape false cfg.cache_length st).ar = some a' ∧
      a'.index = a.index) ∧
    (∀ n, (a.index + (n + cfg.cache_length)) % cfg.cache_length =
      (a.index + n) % cfg.cache_length) ∧
    (∀ n (J : Fin 4 → ℕ),
      J (cached_kv_layout_seq_axis cfg.ar_cache_axis_order) =
        (a.index + n) % cfg.cache_length →
      ∃ a', (decode_iter cfg qz tokens kshape false (n + 1) st).ar = some a' ∧
        a'.key J = stored_ar_token cfg qz (tokens n).1
          (Function.update J (cached_kv_layout_seq_axis cfg.ar_cache_axis_order) 0)) := by
  refine ⟨?_, ?_, ?_, ?_⟩
  · refine ⟨_, decode_ok_eq cfg qz st (tokens 0).1 (tokens 0).2 kshape false a hseq har,
      _, rfl, rfl, Nat.mod_lt _ hcap⟩
  · obtain ⟨a', ha', hidx', _, _⟩ :=
      decode_iter_ar_props cfg qz tokens kshape false hseq cfg.cache_length st a har hidx
    refine ⟨a', ha', ?_⟩
    rw [hidx', Nat.add_mod_right, Nat.mod_eq_of_lt hidx]
  · intro n
    rw [← Nat.add_assoc, Nat.add_mod_right]
  · intro n J hJ
    obtain ⟨a', ha', hidx', hlt', _⟩ :=
      decode_iter_ar_props cfg qz tokens kshape false hseq n st a har hidx
    have hok := decode_ok_eq cfg qz (decode_iter cfg qz tokens kshape false n st)
      (tokens n).1 (tokens n).2 kshape false a' hseq ha'
    refine ⟨{ (update_ar_key_value cfg qz a' (tokens n).1 (tokens n).2 (kshape 1) false).1 with
        segment_id := segment_id_mark_active cfg.cache_length (kshape 1)
          ((update_ar_key_value cfg qz a' (tokens n).1 (tokens n).2 (kshape 1) false).1).segment_id
          a'.index
        index := (a'.index + 1) % cfg.cache_length
        lengths := fun b =>
          ((update_ar_key_value cfg qz a' (tokens n).1 (tokens n).2 (kshape 1) false).1).lengths b + 1 },
      ?_, ?_⟩
    · rw [decode_iter_succ, hok]
      rfl
    · show ((update_ar_key_value cfg qz a' (tokens n).1 (tokens n).2 (kshape 1) false).1).key J = _
      rw [update_ar_key_value_key_indexed]
      unfold dynamic_update_index_in_dim
      have hmin : min a'.index (cfg.cache_length - 1) = a'.index :=
        Nat.min_eq_left (by omega)
      rw [if_pos (by rw [hmin, hJ, hidx'])]

theorem c4_witness :
    (0 < (⟨2, 1, false, 1, 1⟩ : AttentionConfig).cache_length) ∧
    (∃ a', (decode_iter (⟨2, 1, false, 1, 1⟩ : AttentionConfig)
        (⟨fun t => (t, t), fun t _ => t⟩ : QuantOps ℤ)
        (fun _ => (fun _ => (0 : ℤ), fun _ => 0)) (fun _ => 1) false
        ((⟨2, 1, false, 1, 1⟩ : AttentionConfig).cache_length)
        (⟨none, some (init_ar_cache (⟨2, 1, false, 1, 1⟩ : AttentionConfig) ℤ)⟩ :
          CacheState ℤ)).ar = some a' ∧
      a'.index = (init_ar_cache (⟨2, 1, false, 1, 1⟩ : AttentionConfig) ℤ).index) :=
  ⟨by decide,
   (decode_cursor_wraps (⟨2, 1, false, 1, 1⟩ : AttentionConfig)
     (⟨fun t => (t, t), fun t _ => t⟩ : QuantOps ℤ)
     (fun _ => (fun _ => (0 : ℤ), fun _ => 0)) (fun _ => 1)
     (⟨none, some (init_ar_cache (⟨2, 1, false, 1, 1⟩ : AttentionConfig) ℤ)⟩ :
       CacheState ℤ)
     (init_ar_cache (⟨2, 1, false, 1, 1⟩ : AttentionConfig) ℤ)
     rfl rfl (by decide) (by decide)).2.1⟩

/-! ## Claim C5: position of the active segment-id mark -/

/-- C5 counterexample.  Ragged-mode decode from the reachable state after
`cache_length = 3` decode steps (every `lengths` entry is 3, the cursor has
wrapped to 0): the call succeeds, the active mark is written at cursor
position 0, the slot at the batch entry's length-counter position 3 is
neither marked active nor written (the ragged scatter drops the out-of-range
index), so the marked slot is NOT at the position addressed by the ragged
write rule. -/
theorem c5_counterexample :
    ((kv_cache_autoregressive (⟨4, 1, false, 1, 1⟩ : AttentionConfig)
        (⟨fun t => (t, t), fun t _ => t⟩ : QuantOps ℤ)
        (⟨none, some ⟨fun _ => 0, fun _ => 0, none, none, fun _ _ => 0, 0, fun _ => 3⟩⟩ :
          CacheState ℤ)
        (fun _ => 5) (fun _ => 0) (fun _ => 1) true).toOption.bind
      (fun r => r.1.ar.map (fun a2 =>
        (a2.segment_id 0 3, a2.segment_id 0 0,
         a2.key (fun i => if i = 2 then 3 else 0))))) =
      some (0, DECODING_ACTIVE_SEQUENCE_INDICATOR, 0) ∧
    (0 : ℤ) ≠ DECODING_ACTIVE_SEQUENCE_INDICATOR := by
  constructor
  · decide
  · decide

/-- C5 (amended).  Every successful decode marks the segment-id slot at the
shared cursor position active (for every batch row, in BOTH addressing
modes); that position is the kv write position in indexed mode always, and in
ragged mode exactly when the batch entry's length counter equals the cursor —
as holds for the first `cache_length` steps after initialization, but not
after the cursor wraps. -/
theorem decode_marks_active_at_cursor {α : Type} (cfg : AttentionConfig)
    (qz : QuantOps α) [Zero α] (st : CacheState α) (key value : Tensor4 α)
    (kshape : Fin 4 → ℕ) (ur : Bool) (a : ARCache α) (bi : ℕ)
    (hseq : kshape 2 = 1) (har : st.ar = some a)
    (hidx : a.index < cfg.cache_length) (hb : bi < kshape 1) :
    (∃ r, kv_cache_autoregressive cfg qz st key value kshape ur = Except.ok r ∧
      ∃ a2, r.1.ar = some a2 ∧
        a2.segment_id bi a.index = DECODING_ACTIVE_SEQUENCE_INDICATOR) ∧
    (∀ J : Fin 4 → ℕ,
      J (cached_kv_layout_seq_axis cfg.ar_cache_axis_order) = a.index →
      ∃ r, kv_cache_autoregressive cfg qz st key value kshape false = Except.ok r ∧
        ∃ a2, r.1.ar = some a2 ∧
          a2.key J = stored_ar_token cfg qz key
            (Function.update J (cached_kv_layout_seq_axis cfg.ar_cache_axis_order) 0)) ∧
    (a.lengths bi = a.index →
      ∀ J : Fin 4 → ℕ,
        J (cached_kv_layout_seq_axis cfg.ar_cache_axis_order) = a.index →
        ∃ r, kv_cache_autoregressive cfg qz st key value kshape true = Except.ok r ∧
          ∃ a2, r.1.ar = some a2 ∧
            a2.key J = stored_ar_token cfg qz key
              (Function.update J (cached_kv_layout_seq_axis cfg.ar_cache_axis_order) 0)) := by
  have hmin : min a.index (cfg.cache_length - 1) = a.index :=
    Nat.min_eq_left (by omega)
  refine ⟨?_, ?_, ?_⟩
  · refine ⟨_, decode_ok_eq cfg qz st key value kshape ur a hseq har, _, rfl, ?_⟩
    show segment_id_mark_active cfg.cache_length (kshape 1)
      ((update_ar_key_value cfg qz a key value (kshape 1) ur).1).segment_id a.index
      bi a.index = DECODING_ACTIVE_SEQUENCE_INDICATOR
    unfold segment_id_mark_active
    rw [if_pos ⟨hb, hmin.symm⟩]
  · intro J hJ
    refine ⟨_, decode_ok_eq cfg qz st key value kshape false a hseq har, _, rfl, ?_⟩
    show ((update_ar_key_value cfg qz a key value (kshape 1) false).1).key J = _
    rw [update_ar_key_value_key_indexed]
    unfold dynamic_update_index_in_dim
    rw [if_pos (by rw [hmin, hJ])]
  · intro hlen J hJ
    refine ⟨_, decode_ok_eq cfg qz st key value kshape true a hseq har, _, rfl, ?_⟩
    show ((update_ar_key_value cfg qz a key value (kshape 1) true).1).key J = _
    rw [update_ar_key_value_key_ragged]
    unfold ragged_token_set
    rw [if_pos ⟨bi, Finset.mem_range.mpr hb, by rw [hlen, hJ], by rw [hlen]; exact hidx⟩]

theorem c5_witness :
    ((init_ar_cache (⟨2, 1, false, 1, 1⟩ : AttentionConfig) ℤ).index <
      (⟨2, 1, false, 1, 1⟩ : AttentionConfig).cache_length) ∧
    (∃ r, kv_cache_autoregressive (⟨2, 1, false, 1, 1⟩ : AttentionConfig)
        (⟨fun t => (t, t), fun t _ => t⟩ : QuantOps ℤ)
        (⟨none, some (init_ar_cache (⟨2, 1, false, 1, 1⟩ : AttentionConfig) ℤ)⟩ :
          CacheState ℤ)
        (fun _ => 7) (fun _ => 0) (fun _ => 1) true = Except.ok r ∧
      ∃ a2, r.1.ar = some a2 ∧
        a2.segment_id 0 (init_ar_cache (⟨2, 1, false, 1, 1⟩ : AttentionConfig) ℤ).index =
          DECODING_ACTIVE_SEQUENCE_INDICATOR) :=
  ⟨by decide,
   (decode_marks_active_at_cursor (⟨2, 1, false, 1, 1⟩ : AttentionConfig)
     (⟨fun t => (t, t), fun t _ => t⟩ : QuantOps ℤ)
     (⟨none, some (init_ar_cache (⟨2, 1, false, 1, 1⟩ : AttentionConfig) ℤ)⟩ :
       CacheState ℤ)
     (fun _ => 7) (fun _ => 0) (fun _ => 1) true
     (init_ar_cache (⟨2, 1, false, 1, 1⟩ : AttentionConfig) ℤ) 0
     rfl rfl (by decide) (by decide)).1⟩

/-! ## Claim C6: length counters -/

/-- C6.  Every successful decode increments each batch entry's length counter
by exactly one (no clamp at the region capacity — line 1170 of the source is
commented out); after `n` successful decode calls from a freshly prefilled
state every length counter equals `n`; and length counters never decrease
under prefill or (iterated, possibly failing) decode. -/
theorem decode_increments_lengths {α : Type} (cfg : AttentionConfig)
    (qz : QuantOps α) [Zero α] (st : CacheState α) (kshape : Fin 4 → ℕ)
    (ur : Bool) (tokens : ℕ → Tensor4 α × Tensor4 α)
    (hseq : kshape 2 = 1) (hcap : 0 < cfg.cache_length) :
    (∀ (a : ARCache α) (key value : Tensor4 α) r, st.ar = some a →
      kv_cache_autoregressive cfg qz st key value kshape ur = Except.ok r →
      ∃ a2, r.1.ar = some a2 ∧ ∀ b, a2.lengths b = a.lengths b + 1) ∧
    (st.ar = none → ∀ (pk pv : Tensor4 α) (sid : Option (ℕ → ℕ → ℤ)) (n : ℕ),
      ∃ a', (decode_iter cfg qz tokens kshape ur n
          ((kv_cache_prefill cfg qz st pk pv sid).1)).ar = some a' ∧
        ∀ b, a'.lengths b = n) ∧
    (∀ (pk pv : Tensor4 α) (sid : Option (ℕ → ℕ → ℤ)) (b : ℕ),
      ar_lengths_at st b ≤ ar_lengths_at ((kv_cache_prefill cfg qz st pk pv sid).1) b) ∧
    (∀ n b, ar_lengths_at st b ≤
      ar_lengths_at (decode_iter cfg qz tokens kshape ur n st) b) := by
  refine ⟨?_, ?_, ?_, ?_⟩
  · intro a key value r har hok
    obtain ⟨a0, har0, hst⟩ := decode_ok_inv cfg qz st key value kshape ur r hok
    have ha : a0 = a := Option.some.inj (har0.symm.trans har)
    subst ha
    rw [hst]
    refine ⟨_, rfl, fun b => ?_⟩
    show ((update_ar_key_value cfg qz a0 key value (kshape 1) ur).1).lengths b + 1 =
      a0.lengths b + 1
    rw [update_ar_key_value_lengths]
  · intro hnone pk pv sid n
    have harp : ((kv_cache_prefill cfg qz st pk pv sid).1).ar =
        some (init_ar_cache cfg α) := by
      unfold kv_cache_prefill
      rw [hnone]
    obtain ⟨a', ha', _, _, hlen⟩ :=
      decode_iter_ar_props cfg qz tokens kshape ur hseq n _ (init_ar_cache cfg α)
        harp hcap
    refine ⟨a', ha', fun b => ?_⟩
    rw [hlen b]
    show 0 + n = n
    omega
  · intro pk pv sid b
    unfold ar_lengths_at kv_cache_prefill
    cases hst : st.ar with
    | none => exact Nat.zero_le _
    | some a => exact le_refl _
  · exact fun n b => decode_iter_lengths_mono cfg qz tokens kshape ur n st b

theorem c6_witness :
    ((⟨none, none⟩ : CacheState ℤ).ar = none) ∧
    (∃ a', (decode_iter (⟨2, 1, false, 1, 1⟩ : AttentionConfig)
        (⟨fun t => (t, t), fun t _ => t⟩ : QuantOps ℤ)
        (fun _ => (fun _ => (0 : ℤ), fun _ => 0)) (fun _ => 1) true 2
        ((kv_cache_prefill (⟨2, 1, false, 1, 1⟩ : AttentionConfig)
          (⟨fun t => (t, t), fun t _ => t⟩ : QuantOps ℤ)
          (⟨none, none⟩ : CacheState ℤ) (fun _ => 0) (fun _ => 0)
          (some (fun _ _ => 1))).1)).ar = some a' ∧
      ∀ b, a'.lengths b = 2) :=
  ⟨rfl,
   (decode_increments_lengths (⟨2, 1, false, 1, 1⟩ : AttentionConfig)
     (⟨fun t => (t, t), fun t _ => t⟩ : QuantOps ℤ)
     (⟨none, none⟩ : CacheState ℤ) (fun _ => 1) true
     (fun _ => (fun _ => (0 : ℤ), fun _ => 0)) rfl (by decide)).2.1 rfl
     (fun _ => 0) (fun _ => 0) (some (fun _ _ => 1)) 2⟩

/-! ## Claim C7: prefill overwrites the prefill region wholesale -/

/-- C7.  After any prefill call — from ANY prior cache state `st`, including
one populated by an earlier sequence's prefill and decode steps — the prefill
region holds exactly the layout-permuted (and, when quantization is enabled,
quantized) input key and value, and every read of the prefill segment-id
tensor returns the segment ids supplied to this call; the result does not
mention the prior state at all. -/
theorem prefill_overwrites_region {α : Type} (cfg : AttentionConfig)
    (qz : QuantOps α) [Zero α] (st : CacheState α) (key value : Tensor4 α)
    (sid : ℕ → ℕ → ℤ) :
    ((kv_cache_prefill cfg qz st key value (some sid)).1).prefill = some
      (if cfg.quantize_kvcache then
        ({ key := (qz.quantize_kv (reshape_kv_cache cfg.prefill_cache_axis_order key)).1
           value := (qz.quantize_kv (reshape_kv_cache cfg.prefill_cache_axis_order value)).1
           key_scale := some (qz.quantize_kv (reshape_kv_cache cfg.prefill_cache_axis_order key)).2
           value_scale := some (qz.quantize_kv (reshape_kv_cache cfg.prefill_cache_axis_order value)).2
           segment_id := sid } : PrefillCache α)
       else
        { key := reshape_kv_cache cfg.prefill_cache_axis_order key
          value := reshape_kv_cache cfg.prefill_cache_axis_order value
          key_scale := none
          value_scale := none
          segment_id := sid }) ∧
    (∀ b s, ((kv_cache_prefill cfg qz st key value (some sid)).1).prefill.map
      (fun p => p.segment_id b s) = some (sid b s)) := by
  constructor
  · rfl
  · intro b s
    by_cases hq : cfg.quantize_kvcache
    · simp [kv_cache_prefill, hq]
    · simp [kv_cache_prefill, hq]

/-! ## Claim C10: the public entry point is ragged-only -/

/-- C10.  `AttentionOp.__call__` fixes `use_ragged = True` unconditionally;
hence an autoregressive decode through the public entry point takes the
ragged attention-kernel path for both cache chunks and writes the new token
by the ragged scatter at the batch length counters — the indexed
`dynamic_update_index_in_dim` addressing is not reachable through
`__call__`, whatever the configuration. -/
theorem call_uses_ragged_addressing {α : Type} (cfg : AttentionConfig)
    (qz : QuantOps α) [Zero α] (st : CacheState α) (key value : Tensor4 α)
    (kshape vshape : Fin 4 → ℕ) (segIds : Option (ℕ → ℕ → ℤ)) (a : ARCache α)
    (hkv : kshape = vshape) (hseq : kshape 2 = 1) (har : st.ar = some a) :
    attention_call_use_ragged = true ∧
    apply_attention_path attention_call_use_ragged ModelMode.autoregressive =
      AttnPath.raggedKernel ∧
    (∃ st', AttentionOp_call cfg qz st key value kshape vshape segIds
        ModelMode.autoregressive =
        Except.ok (st', AttnDispatch.merged AttnPath.raggedKernel AttnPath.raggedKernel) ∧
      ∃ a2, st'.ar = some a2 ∧
        a2.key = ragged_token_set cfg.cache_length (kshape 1) a.key
          (stored_ar_token cfg qz key) a.lengths
          (cached_kv_layout_seq_axis cfg.ar_cache_axis_order) ∧
        a2.value = ragged_token_set cfg.cache_length (kshape 1) a.value
          (stored_ar_token cfg qz value) a.lengths
          (cached_kv_layout_seq_axis cfg.ar_cache_axis_order)) := by
  refine ⟨rfl, rfl, ?_⟩
  unfold AttentionOp_call kv_cache
  rw [if_neg (by rw [hkv]; exact fun h => h rfl)]
  rw [show attention_call_use_ragged = true from rfl]
  rw [decode_ok_eq cfg qz st key value kshape true a hseq har]
  refine ⟨decode_state_after cfg qz st key value (kshape 1) true a, ?_, ?_⟩
  · rfl
  · refine ⟨_, rfl, ?_, ?_⟩
    · show ((update_ar_key_value cfg qz a key value (kshape 1) true).1).key = _
      rw [update_ar_key_value_key_ragged]
    · show ((update_ar_key_value cfg qz a key value (kshape 1) true).1).value = _
      rw [update_ar_key_value_value_ragged]

theorem c10_witness :
    attention_call_use_ragged = true ∧
    apply_attention_path attention_call_use_ragged ModelMode.autoregressive =
      AttnPath.raggedKernel :=
  ⟨(call_uses_ragged_addressing (⟨2, 1, false, 1, 1⟩ : AttentionConfig)
     (⟨fun t => (t, t), fun t _ => t⟩ : QuantOps ℤ)
     (⟨none, some (init_ar_cache (⟨2, 1, false, 1, 1⟩ : AttentionConfig) ℤ)⟩ :
       CacheState ℤ)
     (fun _ => 0) (fun _ => 0) (fun _ => 1) (fun _ => 1) none
     (init_ar_cache (⟨2, 1, false, 1, 1⟩ : AttentionConfig) ℤ)
     rfl rfl rfl).1,
   (call_uses_ragged_addressing (⟨2, 1, false, 1, 1⟩ : AttentionConfig)
     (⟨fun t => (t, t), fun t _ => t⟩ : QuantOps ℤ)
     (⟨none, some (init_ar_cache (⟨2, 1, false, 1, 1⟩ : AttentionConfig) ℤ)⟩ :
       CacheState ℤ)
     (fun _ => 0) (fun _ => 0) (fun _ => 1) (fun _ => 1) none
     (init_ar_cache (⟨2, 1, false, 1, 1⟩ : AttentionConfig) ℤ)
     rfl rfl rfl).2.1⟩

end MaxTextAttention
